import Mathlib

/-!
Smart waste bin management: synchronisation core.

A shallow embedding of the parts of

* `backend/src/app.js` (the REST handlers of the bin resource, the connection handler,
  the periodic fill-level simulator and the events they emit),
* `backend/src/routes/authRoutes.js` (the login route) and
* `frontend/src/js/dashboard-contoroller.js` (the `DashboardController` mirror `binData`,
  its processing of fetched bins, its merge of incoming messages, the values it derives
  for the view and its reconnect policy)

that the statements below are about.

Conventions.  JavaScript numbers are modelled by rationals (`ℚ`); `NaN` and the
infinities are outside the model, except where the code produces `NaN` from in-model
inputs (`0 / 0` in `updateQuickStats`), which is written `none`.  `Math.random()` and
`new Date()` are explicit arguments.  Dates are milliseconds since the epoch.
-/

namespace SmartBin

/-! ## Numbers -/

/-- JavaScript `Math.round`: the nearest integer, a tie going up, i.e. `floor (x + 1/2)`. -/
def mathRound (x : ℚ) : ℚ := ((⌊x + 1 / 2⌋ : ℤ) : ℚ)

/-- JavaScript `Math.floor`. -/
def mathFloor (x : ℚ) : ℚ := ((⌊x⌋ : ℤ) : ℚ)

/-! ## Data model -/

/-- A bin record as the dashboard holds it in `binData`: the attributes of the server's
bin documents, and `timestamp`, which only the client adds.  `capacity`, `lastUpdated`
and `timestamp` are absent from some records (the demo fleet has no `capacity`, a
server document has no `timestamp`), so they are optional. -/
structure Bin where
  binId : ℤ
  location : String
  fillLevel : ℚ
  batteryLevel : ℚ
  temperature : ℚ
  sensorStatus : String
  lastEmptied : ℤ
  capacity : Option ℚ
  lastUpdated : Option ℤ
  timestamp : Option ℤ
  deriving DecidableEq

/-- A partial bin object: any subset of the keys of a bin.  This is the shape of the
argument `updatedBin` of `updateBinData`; `none` is an absent key. -/
structure BinUpdate where
  binId : Option ℤ
  location : Option String
  fillLevel : Option ℚ
  batteryLevel : Option ℚ
  temperature : Option ℚ
  sensorStatus : Option String
  lastEmptied : Option ℤ
  capacity : Option ℚ
  lastUpdated : Option ℤ
  timestamp : Option ℤ
  deriving DecidableEq

/-! ## The two simulators -/

/-- The fill level written by one tick of the server's simulator (`app.js`, the
`setInterval` callback), for the chosen bin's `fillLevel` and the draw `r` of
`Math.random()`:
`fillChange = (r - 0.5) * 5`, `newFillLevel = max(0, min(100, fillLevel + fillChange))`,
and the value stored and emitted is `Math.round(newFillLevel)`. -/
def simulatorFillLevel (fillLevel r : ℚ) : ℚ :=
  let fillChange := (r - 1 / 2) * 5
  let newFillLevel := max 0 (min 100 (fillLevel + fillChange))
  mathRound newFillLevel

/-- The body of the `forEach` of `DashboardController.simulateDataChanges` for one bin:
`r₁` is the draw for the fill change, `r₂` the draw for the battery drain and `now` the
new timestamp. -/
def simulateBin (bin : Bin) (r₁ r₂ : ℚ) (now : ℤ) : Bin :=
  let change := (r₁ - 1 / 2) * 3
  let fillLevel := max 0 (min 100 (mathRound (bin.fillLevel + change)))
  let batteryLevel := if r₂ < 1 / 10 then max 20 (bin.batteryLevel - 1) else bin.batteryLevel
  { bin with fillLevel := fillLevel, batteryLevel := batteryLevel, timestamp := some now }

/-- The method `DashboardController.simulateDataChanges`: every bin of the mirror is
stepped in order; `rand i` is the `i`-th result of `Math.random()` during the call (two
per bin). -/
def simulateDataChanges : List Bin → (ℕ → ℚ) → ℤ → List Bin
  | [], _, _ => []
  | bin :: rest, rand, now =>
    simulateBin bin (rand 0) (rand 1) now :: simulateDataChanges rest (fun i => rand (i + 2)) now

/-! ## Events and messages -/

/-- The events the server emits on the `binUpdate` channel (`app.js`): `bin_added` by
`POST /api/bins`, `bin_updated` by `PUT /api/bins/:binId`, `bin_deleted` by
`DELETE /api/bins/:binId`, `fill_level_update` by the simulator tick and `initial_data`
by the connection handler. -/
inductive ChangeEvent where
  | bin_added (bin : Bin)
  | bin_updated (bin : Bin)
  | bin_deleted (binId : ℤ)
  | fill_level_update (binId : ℤ) (fillLevel : ℚ)
  | initial_data (bins : List Bin)
  deriving DecidableEq

/-- A parsed message object `data` as `handleWebSocketMessage` receives it.  The keys are
those that the client reads (`type`, `payload`, `message`, `severity`) and those that the
server's events carry (`bin`, `binId`, `fillLevel`, `bins`); `none` is an absent key. -/
structure WsMessage where
  type : String
  payload : Option BinUpdate
  message : Option String
  severity : Option String
  bin : Option Bin
  binId : Option ℤ
  fillLevel : Option ℚ
  bins : Option (List Bin)
  deriving DecidableEq

/-- A message that has the key `type` only. -/
def WsMessage.ofType (type : String) : WsMessage :=
  { type := type, payload := none, message := none, severity := none, bin := none,
    binId := none, fillLevel := none, bins := none }

/-- The object literal that the server passes to `io.emit` for each event. -/
def ChangeEvent.toMessage : ChangeEvent → WsMessage
  | .bin_added bin => { WsMessage.ofType "bin_added" with bin := some bin }
  | .bin_updated bin => { WsMessage.ofType "bin_updated" with bin := some bin }
  | .bin_deleted binId => { WsMessage.ofType "bin_deleted" with binId := some binId }
  | .fill_level_update binId fillLevel =>
    { WsMessage.ofType "fill_level_update" with binId := some binId, fillLevel := some fillLevel }
  | .initial_data bins => { WsMessage.ofType "initial_data" with bins := some bins }

/-- The client's own message for a bin update: `{type: 'bin_update', payload}`. -/
def binUpdateMessage (payload : BinUpdate) : WsMessage :=
  { WsMessage.ofType "bin_update" with payload := some payload }

/-! ## The mirror and its merge -/

/-- The object spread `{ ...bin, ...updatedBin }`: every key present in `updatedBin`
takes its value, every other key keeps the value of `bin`. -/
def spreadBin (bin : Bin) (updatedBin : BinUpdate) : Bin :=
  { binId := updatedBin.binId.getD bin.binId
    location := updatedBin.location.getD bin.location
    fillLevel := updatedBin.fillLevel.getD bin.fillLevel
    batteryLevel := updatedBin.batteryLevel.getD bin.batteryLevel
    temperature := updatedBin.temperature.getD bin.temperature
    sensorStatus := updatedBin.sensorStatus.getD bin.sensorStatus
    lastEmptied := updatedBin.lastEmptied.getD bin.lastEmptied
    capacity := updatedBin.capacity.or bin.capacity
    lastUpdated := updatedBin.lastUpdated.or bin.lastUpdated
    timestamp := updatedBin.timestamp.or bin.timestamp }

/-- The method `DashboardController.updateBinData`, as the value of `this.binData` after
the call: `findIndex(bin => bin.binId === updatedBin.binId)`, and when the index is not
`-1` the record at that index is replaced by the spread.  An `updatedBin` without `binId`
compares `undefined` with a number, which is never equal. -/
def updateBinData (binData : List Bin) (updatedBin : BinUpdate) : List Bin :=
  match binData.findIdx? (fun bin => decide (some bin.binId = updatedBin.binId)) with
  | some index => binData.modify (fun bin => spreadBin bin updatedBin) index
  | none => binData

/-- The method `DashboardController.handleWebSocketMessage`, as the value of
`this.binData` after the call, or the `TypeError` it throws (in which case `this.binData`
keeps its value): the `switch` on `data.type` has the cases `'bin_update'` (calls
`updateBinData(data.payload)`; with `payload` undefined the callback of `findIndex`
throws on the first record), `'alert'` (a toast), `'system_status'` (calls
`this.updateSystemStatus`, which the class does not define) and a `default` that only
logs the unknown type. -/
def handleWebSocketMessage (binData : List Bin) (data : WsMessage) : Except String (List Bin) :=
  if data.type = "bin_update" then
    match data.payload with
    | some updatedBin => .ok (updateBinData binData updatedBin)
    | none =>
      if binData.isEmpty then .ok binData
      else .error "TypeError: Cannot read properties of undefined (reading 'binId')"
  else if data.type = "alert" then .ok binData
  else if data.type = "system_status" then
    .error "TypeError: this.updateSystemStatus is not a function"
  else .ok binData

/-! ## Derived view state -/

/-- The object `userSession.settings` of the controller. -/
structure Settings where
  alertThreshold : ℚ
  fontSize : String
  refreshInterval : ℚ
  darkMode : Bool
  deriving DecidableEq

/-- The settings the constructor installs. -/
def defaultSettings : Settings :=
  { alertThreshold := 85, fontSize := "16px", refreshInterval := 60000, darkMode := false }

/-- The elements of the page that the render functions look up and return early
without: `binsGrid` (`renderBinCards`) and `notifications` (`updateNotifications`). -/
structure Page where
  binsGrid : Bool
  notifications : Bool
  deriving DecidableEq

/-- The method `DashboardController.getBinStatusClass`. -/
def getBinStatusClass (settings : Settings) (fillLevel : ℚ) : String :=
  if fillLevel ≥ settings.alertThreshold then "status-danger"
  else if fillLevel ≥ 60 then "status-warning"
  else "status-ok"

/-- The method `DashboardController.getBinStatusIcon`. -/
def getBinStatusIcon (settings : Settings) (fillLevel : ℚ) : String :=
  if fillLevel ≥ settings.alertThreshold then "🚨"
  else if fillLevel ≥ 60 then "⚠️"
  else "✅"

/-- The method `DashboardController.getProgressColor`. -/
def getProgressColor (settings : Settings) (fillLevel : ℚ) : String :=
  if fillLevel ≥ settings.alertThreshold then "#e74c3c"
  else if fillLevel ≥ 60 then "#f39c12"
  else "#27ae60"

/-- The method `DashboardController.getSensorStatusIcon`. -/
def getSensorStatusIcon (status : String) : String :=
  if status = "active" then "🟢"
  else if status = "warning" then "🟡"
  else if status = "error" then "🔴"
  else if status = "low_battery" then "🔋"
  else if status = "offline" then "⚫"
  else "❓"

/-- The three texts `formatTimeAgo` produces: `"<n>d ago"`, `"<n>h ago"`, `"Recently"`. -/
inductive TimeAgo where
  | daysAgo (diffDays : ℤ)
  | hoursAgo (diffHours : ℤ)
  | recently
  deriving DecidableEq

/-- The method `DashboardController.formatTimeAgo`, with `now` the value of `new Date()`. -/
def formatTimeAgo (now date : ℤ) : TimeAgo :=
  let diffMs := now - date
  let diffHours := ⌊(diffMs : ℚ) / (1000 * 60 * 60)⌋
  let diffDays := ⌊(diffHours : ℚ) / 24⌋
  if diffDays > 0 then .daysAgo diffDays
  else if diffHours > 0 then .hoursAgo diffHours
  else .recently

/-- The values that `createBinCard` interpolates into the card of one bin. -/
structure BinCard where
  binId : ℤ
  sensorStatus : String
  sensorStatusIcon : String
  statusClass : String
  statusIcon : String
  fillLevel : ℚ
  progressColor : String
  location : String
  batteryLevel : ℚ
  temperature : ℚ
  lastEmptied : TimeAgo
  deriving DecidableEq

/-- The method `DashboardController.createBinCard`. -/
def createBinCard (settings : Settings) (now : ℤ) (bin : Bin) : BinCard :=
  { binId := bin.binId
    sensorStatus := bin.sensorStatus
    sensorStatusIcon := getSensorStatusIcon bin.sensorStatus
    statusClass := getBinStatusClass settings bin.fillLevel
    statusIcon := getBinStatusIcon settings bin.fillLevel
    fillLevel := bin.fillLevel
    progressColor := getProgressColor settings bin.fillLevel
    location := bin.location
    batteryLevel := bin.batteryLevel
    temperature := bin.temperature
    lastEmptied := formatTimeAgo now bin.lastEmptied }

/-- The method `DashboardController.renderBinCards`: the cards appended to the grid, in
the order of the mirror; `none` when the page has no grid. -/
def renderBinCards (page : Page) (settings : Settings) (now : ℤ) (binData : List Bin) :
    Option (List BinCard) :=
  if !page.binsGrid then none
  else some (binData.map (createBinCard settings now))

/-- The values `updateQuickStats` passes to `updateElement`, by element id.  The two
averages are `none` when the computed number is `NaN`. -/
structure QuickStats where
  totalBins : ℕ
  fullBins : ℕ
  avgFill : Option ℚ
  collectionDue : ℕ
  avgFillToday : Option ℚ
  collectionsToday : ℚ
  efficiency : ℚ
  deriving DecidableEq

/-- The method `DashboardController.updateQuickStats`; `r₁` and `r₂` are its two draws of
`Math.random()`.  On an empty mirror the average is `Math.round(0 / 0)`, which is `NaN`. -/
def updateQuickStats (settings : Settings) (binData : List Bin) (r₁ r₂ : ℚ) : QuickStats :=
  let totalBins := binData.length
  let fullBins := (binData.filter (fun bin => bin.fillLevel ≥ settings.alertThreshold)).length
  let avgFill :=
    if totalBins = 0 then none
    else some (mathRound (binData.foldl (fun sum bin => sum + bin.fillLevel) 0 / totalBins))
  let collectionDue := (binData.filter (fun bin => bin.fillLevel ≥ 70)).length
  { totalBins := totalBins
    fullBins := fullBins
    avgFill := avgFill
    collectionDue := collectionDue
    avgFillToday := avgFill
    collectionsToday := mathFloor (r₁ * 5) + 2
    efficiency := mathRound (85 + r₂ * 10) }

/-- One `<div class="notification ...">` of the notification list, by its class and the
values interpolated into its text. -/
inductive Notification where
  | urgent (binId : ℤ) (fillLevel : ℚ)
  | warning (binId : ℤ) (fillLevel : ℚ)
  | battery (binId : ℤ) (batteryLevel : ℚ)
  | success
  deriving DecidableEq

/-- The method `DashboardController.updateNotifications`: the list written to the
notification container, `none` when the page has no such container. -/
def updateNotifications (page : Page) (settings : Settings) (binData : List Bin) :
    Option (List Notification) :=
  if !page.notifications then none
  else
    let urgentBins := binData.filter (fun bin => bin.fillLevel ≥ settings.alertThreshold)
    let warningBins :=
      binData.filter (fun bin => bin.fillLevel ≥ 70 ∧ bin.fillLevel < settings.alertThreshold)
    let lowBatteryBins := binData.filter (fun bin => bin.batteryLevel < 30)
    let notificationHtml : List Notification := []
    let notificationHtml :=
      if urgentBins.length > 0 then
        notificationHtml ++ urgentBins.map (fun bin => .urgent bin.binId bin.fillLevel)
      else notificationHtml
    let notificationHtml :=
      if warningBins.length > 0 then
        notificationHtml ++ warningBins.map (fun bin => .warning bin.binId bin.fillLevel)
      else notificationHtml
    let notificationHtml :=
      if lowBatteryBins.length > 0 then
        notificationHtml ++ lowBatteryBins.map (fun bin => .battery bin.binId bin.batteryLevel)
      else notificationHtml
    let notificationHtml :=
      if notificationHtml.isEmpty then [Notification.success] else notificationHtml
    some notificationHtml

/-- What one call of `renderDashboard` derives from the mirror: the cards, the quick
stats and the notification list. -/
structure ViewState where
  cards : Option (List BinCard)
  stats : QuickStats
  notifications : Option (List Notification)
  deriving DecidableEq

/-- The method `DashboardController.renderDashboard`, for its calls of `renderBinCards`,
`updateQuickStats` and `updateNotifications`.  The chart (`renderTrendChart`) and the
insights of `generateAIInsights`, whose class `AIAnalytics` is not among the sources, are
not part of the view state here. -/
def renderDashboard (page : Page) (settings : Settings) (binData : List Bin) (r₁ r₂ : ℚ)
    (now : ℤ) : ViewState :=
  { cards := renderBinCards page settings now binData
    stats := updateQuickStats settings binData r₁ r₂
    notifications := updateNotifications page settings binData }

/-! ## Properties of a merged record -/

/-- Every key present in the partial object `updatedBin` has, in `bin`, the value that
`updatedBin` gives it. -/
def carriesFields (updatedBin : BinUpdate) (bin : Bin) : Prop :=
  (updatedBin.binId = none ∨ updatedBin.binId = some bin.binId) ∧
  (updatedBin.location = none ∨ updatedBin.location = some bin.location) ∧
  (updatedBin.fillLevel = none ∨ updatedBin.fillLevel = some bin.fillLevel) ∧
  (updatedBin.batteryLevel = none ∨ updatedBin.batteryLevel = some bin.batteryLevel) ∧
  (updatedBin.temperature = none ∨ updatedBin.temperature = some bin.temperature) ∧
  (updatedBin.sensorStatus = none ∨ updatedBin.sensorStatus = some bin.sensorStatus) ∧
  (updatedBin.lastEmptied = none ∨ updatedBin.lastEmptied = some bin.lastEmptied) ∧
  (updatedBin.capacity = none ∨ updatedBin.capacity = bin.capacity) ∧
  (updatedBin.lastUpdated = none ∨ updatedBin.lastUpdated = bin.lastUpdated) ∧
  (updatedBin.timestamp = none ∨ updatedBin.timestamp = bin.timestamp)

instance (updatedBin : BinUpdate) (bin : Bin) : Decidable (carriesFields updatedBin bin) := by
  unfold carriesFields
  infer_instance

/-- Every key absent from the partial object `updatedBin` has the same value (or the same
absence) in `new` as in `old`. -/
def keepsOtherFields (updatedBin : BinUpdate) (old new : Bin) : Prop :=
  (updatedBin.binId = none → new.binId = old.binId) ∧
  (updatedBin.location = none → new.location = old.location) ∧
  (updatedBin.fillLevel = none → new.fillLevel = old.fillLevel) ∧
  (updatedBin.batteryLevel = none → new.batteryLevel = old.batteryLevel) ∧
  (updatedBin.temperature = none → new.temperature = old.temperature) ∧
  (updatedBin.sensorStatus = none → new.sensorStatus = old.sensorStatus) ∧
  (updatedBin.lastEmptied = none → new.lastEmptied = old.lastEmptied) ∧
  (updatedBin.capacity = none → new.capacity = old.capacity) ∧
  (updatedBin.lastUpdated = none → new.lastUpdated = old.lastUpdated) ∧
  (updatedBin.timestamp = none → new.timestamp = old.timestamp)

instance (updatedBin : BinUpdate) (old new : Bin) :
    Decidable (keepsOtherFields updatedBin old new) := by
  unfold keepsOtherFields
  infer_instance

/-! ## Concrete records -/

/-- Bin 4 of the fleet that `initializeDefaultData` seeds (`lastEmptied` at time 0). -/
def defaultBin4 : Bin :=
  { binId := 4, location := "Parking Garage - Level B1", fillLevel := 89, batteryLevel := 67,
    temperature := 19, sensorStatus := "warning", lastEmptied := 0, capacity := some 100,
    lastUpdated := none, timestamp := none }

/-- Bin 4 after `PUT /api/bins/4` with the body `{fillLevel: 95}` at time 1000. -/
def bin4At95 : Bin :=
  { defaultBin4 with fillLevel := 95, lastUpdated := some 1000 }

/-- The record that `POST /api/bins` creates for `{binId: 7, location: "X"}` at time 0. -/
def newBin7 : Bin :=
  { binId := 7, location := "X", fillLevel := 0, batteryLevel := 100, temperature := 20,
    sensorStatus := "active", lastEmptied := 0, capacity := some 100, lastUpdated := none,
    timestamp := none }

/-- The partial object with the keys `binId` and `fillLevel` only. -/
def fillLevelPayload (binId : ℤ) (fillLevel : ℚ) : BinUpdate :=
  { binId := some binId, location := none, fillLevel := some fillLevel, batteryLevel := none,
    temperature := none, sensorStatus := none, lastEmptied := none, capacity := none,
    lastUpdated := none, timestamp := none }

/-- A page that has both the grid and the notification container. -/
def fullPage : Page := { binsGrid := true, notifications := true }

/-! ## The server: store and REST handlers

The store is the list of bin documents in the order of the collection.  The calls of
the object-document mapper are modelled by what they do to that list: `findOne` returns
the first match, `save` appends, `findOneAndUpdate` sets the given fields on the first
match (the options passed are `{ new: true }` only, so no validator runs on an update)
and `findOneAndDelete` removes the first match.  The handlers `postBin`, `putBin` and
`deleteBin` take every store call to resolve; `postBinHandler`, `putBinHandler` and
`deleteBinHandler` further down add the `catch` branches that answer 500. -/

/-- The call `Bin.findOne({ binId })`. -/
def findOne (store : List Bin) (binId : ℤ) : Option Bin :=
  store.find? (fun bin => bin.binId = binId)

/-- The call `Bin.findOneAndUpdate({ binId }, update, { new: true })`: the updated
document and the store after the write, `none` when no document matches. -/
def findOneAndUpdate : List Bin → ℤ → BinUpdate → Option (Bin × List Bin)
  | [], _, _ => none
  | doc :: rest, binId, update =>
    if doc.binId = binId then some (spreadBin doc update, spreadBin doc update :: rest)
    else
      match findOneAndUpdate rest binId update with
      | some (updated, rest') => some (updated, doc :: rest')
      | none => none

/-- The call `Bin.findOneAndDelete({ binId })`: the deleted document and the store after
the write, `none` when no document matches. -/
def findOneAndDelete : List Bin → ℤ → Option (Bin × List Bin)
  | [], _ => none
  | doc :: rest, binId =>
    if doc.binId = binId then some (doc, rest)
    else
      match findOneAndDelete rest binId with
      | some (deleted, rest') => some (deleted, doc :: rest')
      | none => none

/-- One effect of a request handler, in the order the handler performs them: a store
write (`saved`, `updated`, `deleted`), a broadcast `io.emit('binUpdate', event)` and the
response (status and, when the body carries one, the bin). -/
inductive ServerEffect where
  | saved (bin : Bin)
  | updated (bin : Bin)
  | deleted (bin : Bin)
  | emit (event : ChangeEvent)
  | respond (status : ℕ) (bin : Option Bin)
  deriving DecidableEq

/-- The store after a handler ran and the effects it performed, in order. -/
structure ServerOutcome where
  store : List Bin
  effects : List ServerEffect
  deriving DecidableEq

/-- The events a handler broadcast, in order. -/
def ServerOutcome.broadcasts (outcome : ServerOutcome) : List ChangeEvent :=
  outcome.effects.filterMap (fun effect =>
    match effect with
    | .emit event => some event
    | _ => none)

/-- The status the handler answered with. -/
def ServerOutcome.status (outcome : ServerOutcome) : Option ℕ :=
  outcome.effects.findSome? (fun effect =>
    match effect with
    | .respond status _ => some status
    | _ => none)

/-- The bin in the body of the handler's answer. -/
def ServerOutcome.responseBin (outcome : ServerOutcome) : Option Bin :=
  outcome.effects.findSome? (fun effect =>
    match effect with
    | .respond _ bin => bin
    | _ => none)

/-- The body of `POST /api/bins`, for the keys the handler destructures. -/
structure CreateBinBody where
  binId : Option ℤ
  location : Option String
  capacity : Option ℚ
  deriving DecidableEq

/-- The document `new Bin({...})` of `POST /api/bins`; `now` is `new Date()`. -/
def createdBin (binId : ℤ) (location : String) (capacity : ℚ) (now : ℤ) : Bin :=
  { binId := binId, location := location, fillLevel := 0, batteryLevel := 100,
    temperature := 20, sensorStatus := "active", lastEmptied := now,
    capacity := some capacity, lastUpdated := none, timestamp := none }

/-- The handler `app.post('/api/bins')`.  The guard `!binId || !location` holds for an
absent key and for the values `0` and `''`. -/
def postBin (store : List Bin) (body : CreateBinBody) (now : ℤ) : ServerOutcome :=
  let capacity := body.capacity.getD 100
  match body.binId, body.location with
  | some binId, some location =>
    if binId = 0 ∨ location = "" then { store := store, effects := [.respond 400 none] }
    else
      match findOne store binId with
      | some _ => { store := store, effects := [.respond 400 none] }
      | none =>
        let newBin := createdBin binId location capacity now
        { store := store ++ [newBin]
          effects := [.saved newBin, .emit (.bin_added newBin), .respond 201 (some newBin)] }
  | _, _ => { store := store, effects := [.respond 400 none] }

/-- The handler `app.get('/api/bins/:binId')`, for the parsed path parameter. -/
def getBin (store : List Bin) (binId : ℤ) : ServerOutcome :=
  match findOne store binId with
  | none => { store := store, effects := [.respond 404 none] }
  | some bin => { store := store, effects := [.respond 200 (some bin)] }

/-- The handler `app.put('/api/bins/:binId')`, for the parsed path parameter and the
request body `updateData`; the update document is `{ ...updateData, lastUpdated: now }`. -/
def putBin (store : List Bin) (binId : ℤ) (updateData : BinUpdate) (now : ℤ) : ServerOutcome :=
  match findOneAndUpdate store binId { updateData with lastUpdated := some now } with
  | none => { store := store, effects := [.respond 404 none] }
  | some (updatedBin, store') =>
    { store := store'
      effects := [.updated updatedBin, .emit (.bin_updated updatedBin),
        .respond 200 (some updatedBin)] }

/-- The handler `app.delete('/api/bins/:binId')`, for the parsed path parameter. -/
def deleteBin (store : List Bin) (binId : ℤ) : ServerOutcome :=
  match findOneAndDelete store binId with
  | none => { store := store, effects := [.respond 404 none] }
  | some (deletedBin, store') =>
    { store := store'
      effects := [.deleted deletedBin, .emit (.bin_deleted binId), .respond 200 none] }

/-! ### The handlers with a store that can fail

Each handler awaits its store calls inside `try`; a call that rejects throws into the
`catch`, which answers 500.  A rejected call is taken to have written nothing. -/

/-- Whether the store calls of one request resolve: `findResolves` for `Bin.findOne`,
`writeResolves` for `save`, `findOneAndUpdate` and `findOneAndDelete`. -/
structure StoreCalls where
  findResolves : Bool
  writeResolves : Bool
  deriving DecidableEq

/-- Every store call resolves. -/
def StoreCalls.healthy : StoreCalls := { findResolves := true, writeResolves := true }

/-- The handler `app.post('/api/bins')` with its `try`/`catch`: the guard, `findOne`, the
duplicate check, `save`, `io.emit` and the answer 201, in this order; a rejected call
leaves through the `catch` with 500 before anything that follows it. -/
def postBinHandler (calls : StoreCalls) (store : List Bin) (body : CreateBinBody) (now : ℤ) :
    ServerOutcome :=
  let capacity := body.capacity.getD 100
  match body.binId, body.location with
  | some binId, some location =>
    if binId = 0 ∨ location = "" then { store := store, effects := [.respond 400 none] }
    else if !calls.findResolves then { store := store, effects := [.respond 500 none] }
    else
      match findOne store binId with
      | some _ => { store := store, effects := [.respond 400 none] }
      | none =>
        if !calls.writeResolves then { store := store, effects := [.respond 500 none] }
        else
          let newBin := createdBin binId location capacity now
          { store := store ++ [newBin]
            effects := [.saved newBin, .emit (.bin_added newBin), .respond 201 (some newBin)] }
  | _, _ => { store := store, effects := [.respond 400 none] }

/-- The handler `app.put('/api/bins/:binId')` with its `try`/`catch`. -/
def putBinHandler (calls : StoreCalls) (store : List Bin) (binId : ℤ) (updateData : BinUpdate)
    (now : ℤ) : ServerOutcome :=
  if !calls.writeResolves then { store := store, effects := [.respond 500 none] }
  else
    match findOneAndUpdate store binId { updateData with lastUpdated := some now } with
    | none => { store := store, effects := [.respond 404 none] }
    | some (updatedBin, store') =>
      { store := store'
        effects := [.updated updatedBin, .emit (.bin_updated updatedBin),
          .respond 200 (some updatedBin)] }

/-- The handler `app.delete('/api/bins/:binId')` with its `try`/`catch`. -/
def deleteBinHandler (calls : StoreCalls) (store : List Bin) (binId : ℤ) : ServerOutcome :=
  if !calls.writeResolves then { store := store, effects := [.respond 500 none] }
  else
    match findOneAndDelete store binId with
    | none => { store := store, effects := [.respond 404 none] }
    | some (deletedBin, store') =>
      { store := store'
        effects := [.deleted deletedBin, .emit (.bin_deleted binId), .respond 200 none] }

/-- The document is the first of the store with the `binId`: the store is `before`, the
document, `after`, and no document of `before` has the `binId`. -/
def firstWithBinId (store : List Bin) (binId : ℤ) (before : List Bin) (doc : Bin)
    (after : List Bin) : Prop :=
  store = before ++ doc :: after ∧ doc.binId = binId ∧ ∀ bin ∈ before, bin.binId ≠ binId

/-- The call `Bin.find().sort({ binId: 1 })`: the documents by ascending `binId`. -/
def findSortedByBinId (store : List Bin) : List Bin :=
  store.insertionSort (fun a b => a.binId ≤ b.binId)

/-- The handler `io.on('connection')`: the events it sends to the new socket. -/
def onConnection (store : List Bin) : List ChangeEvent :=
  [.initial_data (findSortedByBinId store)]

/-- The callback of the server's `setInterval`: `rPick` is the draw that selects the bin,
`rFill` the draw of the fill change.  Nothing happens on an empty store; when the selected
index is outside the list (a draw outside [0,1)) reading `randomBin.fillLevel` throws and
the `catch` only logs. -/
def simulatorTick (store : List Bin) (rPick rFill : ℚ) (now : ℤ) : ServerOutcome :=
  if store.length > 0 then
    let index := ⌊rPick * store.length⌋
    match (if index < 0 then none else store[index.toNat]?) with
    | none => { store := store, effects := [] }
    | some randomBin =>
      let fillLevel := simulatorFillLevel randomBin.fillLevel rFill
      let update : BinUpdate :=
        { binId := none, location := none, fillLevel := some fillLevel, batteryLevel := none,
          temperature := none, sensorStatus := none, lastEmptied := none, capacity := none,
          lastUpdated := some now, timestamp := none }
      match findOneAndUpdate store randomBin.binId update with
      | none =>
        { store := store, effects := [.emit (.fill_level_update randomBin.binId fillLevel)] }
      | some (updatedBin, store') =>
        { store := store'
          effects := [.updated updatedBin,
            .emit (.fill_level_update randomBin.binId fillLevel)] }
  else { store := store, effects := [] }

/-! ## The server: login

The user model (`models/user`) is not among the sources: a user document is taken with
the fields the route reads, and its method `comparePassword` is a parameter. -/

/-- A user document, for the fields `router.post('/login')` reads. -/
structure User where
  userId : ℕ
  username : String
  email : String
  role : String
  isActive : Bool
  deriving DecidableEq

/-- The body of `POST /login`, for the keys the route destructures. -/
structure LoginBody where
  username : Option String
  password : Option String
  deriving DecidableEq

/-- What `jwt.sign` is called with: the payload and the `expiresIn` option. -/
structure Token where
  userId : ℕ
  username : String
  role : String
  expiresIn : String
  deriving DecidableEq

/-- The answer of the login route: the status and the `token` of the body, if any. -/
structure LoginResponse where
  status : ℕ
  token : Option Token
  deriving DecidableEq

/-- The call `User.findOne({ username })`. -/
def findUser (users : List User) (username : String) : Option User :=
  users.find? (fun user => user.username = username)

/-- The route `router.post('/login')` of `authRoutes.js`.  The guard
`!username || !password` holds for an absent key and for the empty string.
`toLowerCase` is JavaScript's `String.prototype.toLowerCase` and `comparePassword` the
method of the user document: both are parameters. -/
def login (toLowerCase : String → String) (comparePassword : User → String → Bool)
    (users : List User) (body : LoginBody) : LoginResponse :=
  match body.username, body.password with
  | some username, some password =>
    if username = "" ∨ password = "" then { status := 400, token := none }
    else
      let normalizedUsername := toLowerCase username
      match findUser users normalizedUsername with
      | none => { status := 401, token := none }
      | some user =>
        if !user.isActive then { status := 401, token := none }
        else
          let isMatch := comparePassword user password
          if !isMatch then { status := 401, token := none }
          else
            let token : Token :=
              { userId := user.userId, username := user.username, role := user.role,
                expiresIn := "1h" }
            { status := 200, token := some token }
  | _, _ => { status := 400, token := none }

/-- The token the login route signs for a user: the user's id, name and role, expiring in
one hour. -/
def tokenFor (user : User) : Token :=
  { userId := user.userId, username := user.username, role := user.role, expiresIn := "1h" }

/-- The user is the first of the store under the name: the one `User.findOne` returns. -/
def firstUserNamed (users : List User) (name : String) (user : User) : Prop :=
  ∃ before after, users = before ++ user :: after ∧ user.username = name ∧
    ∀ u ∈ before, u.username ≠ name

/-! ## The client: connectivity and reconnect

The state of the controller that `initializeWebSocket`, its `onopen` and `onclose`
handlers, the retry timer, `loadInitialData` and `handleConnectionChange` read and write,
with what is in flight: sockets created and not yet closed, retry timers scheduled and not
yet fired, calls of `loadInitialData` awaiting their response. -/

/-- The connectivity state of a `DashboardController`. -/
structure ClientState where
  isConnected : Bool
  retryCount : ℕ
  maxRetries : ℕ
  initPending : Bool
  pendingLoads : ℕ
  channels : ℕ
  pendingRetries : ℕ
  deriving DecidableEq

/-- The state the constructor leaves, with `init()` awaiting `loadInitialData`. -/
def initialClientState : ClientState :=
  { isConnected := false, retryCount := 0, maxRetries := 3, initPending := true,
    pendingLoads := 0, channels := 0, pendingRetries := 0 }

/-- What can happen to the client: the `loadInitialData` of `init()` completes (with the
backend answering or not) and `init()` goes on to `initializeWebSocket`; `init()` throws
before reaching it; a `loadInitialData` started by `handleConnectionChange` completes; a
socket fires `open`; a socket fires `close`; a retry timer fires; the window fires
`online` or `offline`. -/
inductive ClientEvent where
  | initLoaded (ok : Bool)
  | initAborted
  | loadCompleted (ok : Bool)
  | channelOpened
  | channelClosed
  | retryTimer
  | online
  | offline
  deriving DecidableEq

/-- The method `DashboardController.initializeWebSocket`: it returns at once when
`isConnected` is false, and creates a socket otherwise. -/
def initializeWebSocket (s : ClientState) : ClientState :=
  if !s.isConnected then s
  else { s with channels := s.channels + 1 }

/-- The `onclose` handler of a socket: `updateConnectionStatus(false)`, and a retry timer
when `retryCount < maxRetries`. -/
def onClose (s : ClientState) : ClientState :=
  let s := { s with isConnected := false }
  if s.retryCount < s.maxRetries then { s with pendingRetries := s.pendingRetries + 1 }
  else s

/-- The callback of the retry timer: `this.retryCount++; this.initializeWebSocket()`. -/
def onRetryTimer (s : ClientState) : ClientState :=
  initializeWebSocket { s with retryCount := s.retryCount + 1 }

/-- The method `DashboardController.handleConnectionChange`: `loadInitialData()` is
started and not awaited, so `initializeWebSocket()` runs before it sets `isConnected`. -/
def handleConnectionChange (s : ClientState) (online : Bool) : ClientState :=
  if online && !s.isConnected then
    initializeWebSocket { s with pendingLoads := s.pendingLoads + 1 }
  else s

/-- One step of the client.  An event that cannot occur in the state (a socket event
without a socket, a timer firing without a timer, a completion without a call in flight)
leaves the state as it is. -/
def clientStep (s : ClientState) : ClientEvent → ClientState
  | .initLoaded ok =>
    if s.initPending then
      initializeWebSocket { s with isConnected := ok, initPending := false }
    else s
  | .initAborted => if s.initPending then { s with initPending := false } else s
  | .loadCompleted ok =>
    if s.pendingLoads > 0 then
      { s with isConnected := ok, pendingLoads := s.pendingLoads - 1 }
    else s
  | .channelOpened => if s.channels > 0 then { s with isConnected := true } else s
  | .channelClosed =>
    if s.channels > 0 then onClose { s with channels := s.channels - 1 } else s
  | .retryTimer =>
    if s.pendingRetries > 0 then onRetryTimer { s with pendingRetries := s.pendingRetries - 1 }
    else s
  | .online => handleConnectionChange s true
  | .offline => handleConnectionChange s false

/-- The state after a sequence of events. -/
def clientRun (s : ClientState) (events : List ClientEvent) : ClientState :=
  events.foldl clientStep s

/-- A connected client as `init()` leaves it on a reachable backend: one socket, no
retry so far. -/
def connectedClient : ClientState :=
  { isConnected := true, retryCount := 0, maxRetries := 3, initPending := false,
    pendingLoads := 0, channels := 1, pendingRetries := 0 }

/-- A disconnected client whose three retries are used up. -/
def exhaustedClient : ClientState :=
  { isConnected := false, retryCount := 3, maxRetries := 3, initPending := false,
    pendingLoads := 0, channels := 0, pendingRetries := 0 }

/-- The invariant of the reconnect policy: the bound is 3, at most one socket or timer
is in flight, none before `init()` has loaded, the counter is at most the bound and below
it while a timer is pending. -/
def ClientState.Inv (s : ClientState) : Prop :=
  s.maxRetries = 3 ∧ s.channels + s.pendingRetries ≤ 1 ∧
  (s.initPending = true → s.channels + s.pendingRetries = 0) ∧
  s.retryCount ≤ 3 ∧ (s.pendingRetries > 0 → s.retryCount < 3)

instance (s : ClientState) : Decidable s.Inv := by
  unfold ClientState.Inv
  infer_instance

/-! ## The client: processing of fetched bins -/

/-- A bin object as `GET /api/bins` delivers it to `processBinData`: the keys that
`processBinData` gives a default may be absent.  Dates arrive as ISO strings, which are
truthy whenever present. -/
structure RawBin where
  binId : ℤ
  location : String
  fillLevel : ℚ
  batteryLevel : Option ℚ
  temperature : Option ℚ
  sensorStatus : Option String
  lastEmptied : Option ℤ
  capacity : Option ℚ
  lastUpdated : Option ℤ
  timestamp : Option ℤ
  deriving DecidableEq

/-- Whether `x || ...` takes its right operand, for a number: `x` is absent or 0. -/
def falsyNumber : Option ℚ → Bool
  | some x => decide (x = 0)
  | none => true

/-- Whether `x || ...` takes its right operand, for a string: `x` is absent or empty. -/
def falsyString : Option String → Bool
  | some x => decide (x = "")
  | none => true

/-- The time value of `new Date(x)` for a number of milliseconds: the fraction is
dropped, towards zero. -/
def dateOfNumber (x : ℚ) : ℤ := if 0 ≤ x then ⌊x⌋ else ⌈x⌉

/-- The arrow function of `processBinData` for one bin, with the number of draws of
`Math.random()` it made: `rand i` is its `i`-th draw and `now` is `Date.now()`.  A draw
is made only where the left operand of `||` is falsy, in the order of the properties. -/
def processBin (bin : RawBin) (rand : ℕ → ℚ) (now : ℤ) : Bin × ℕ :=
  let timestamp := bin.timestamp.getD now
  let (lastEmptied, used) :=
    match bin.lastEmptied with
    | some date => (date, 0)
    | none => (dateOfNumber (now - rand 0 * 7 * 24 * 60 * 60 * 1000), 1)
  let (batteryLevel, used) :=
    if falsyNumber bin.batteryLevel then (80 + mathFloor (rand used * 20), used + 1)
    else (bin.batteryLevel.getD 0, used)
  let (temperature, used) :=
    if falsyNumber bin.temperature then (20 + mathFloor (rand used * 10), used + 1)
    else (bin.temperature.getD 0, used)
  let sensorStatus :=
    if falsyString bin.sensorStatus then "active" else bin.sensorStatus.getD ""
  ({ binId := bin.binId, location := bin.location, fillLevel := bin.fillLevel,
     batteryLevel := batteryLevel, temperature := temperature, sensorStatus := sensorStatus,
     lastEmptied := lastEmptied, capacity := bin.capacity, lastUpdated := bin.lastUpdated,
     timestamp := some timestamp }, used)

/-- The method `DashboardController.processBinData`: `rawData.map` of the arrow function,
the draws of `Math.random()` being consumed from `rand` in order. -/
def processBinData : List RawBin → (ℕ → ℚ) → ℤ → List Bin
  | [], _, _ => []
  | bin :: rest, rand, now =>
    (processBin bin rand now).1 ::
      processBinData rest (fun i => rand (i + (processBin bin rand now).2)) now

/-- The raw object of a stored bin: every key of the document, and no `timestamp`. -/
def Bin.toRaw (bin : Bin) : RawBin :=
  { binId := bin.binId, location := bin.location, fillLevel := bin.fillLevel,
    batteryLevel := some bin.batteryLevel, temperature := some bin.temperature,
    sensorStatus := some bin.sensorStatus, lastEmptied := some bin.lastEmptied,
    capacity := bin.capacity, lastUpdated := bin.lastUpdated, timestamp := bin.timestamp }

/-- Bin 4 with an empty battery in a room at 0 °C. -/
def flatBin4 : Bin := { defaultBin4 with batteryLevel := 0, temperature := 0 }

/-- Bin 4 with its battery at 10 %. -/
def lowBatteryBin4 : Bin := { defaultBin4 with batteryLevel := 10 }

/-! ## The range of the levels -/

/-- The fill level and the battery level of the bin are both in [0,100]. -/
def Bin.levelsInRange (bin : Bin) : Prop :=
  0 ≤ bin.fillLevel ∧ bin.fillLevel ≤ 100 ∧ 0 ≤ bin.batteryLevel ∧ bin.batteryLevel ≤ 100

instance (bin : Bin) : Decidable bin.levelsInRange := by
  unfold Bin.levelsInRange
  infer_instance

/-! ## Concrete requests -/

/-- The default administrator that `initializeDefaultData` creates. -/
def adminUser : User :=
  { userId := 1, username := "admin", email := "admin@smartwaste.com",
    role := "administrator", isActive := true }

/-- Lower-casing of the ASCII letters of a string: what `toLowerCase` does on a string of
ASCII characters. -/
def asciiLower (s : String) : String := String.mk (s.data.map Char.toLower)

/-- A password check that accepts `admin123` for every user. -/
def admin123 (_user : User) (password : String) : Bool := password = "admin123"

/-- The partial object with no key. -/
def emptyUpdate : BinUpdate :=
  { binId := none, location := none, fillLevel := none, batteryLevel := none,
    temperature := none, sensorStatus := none, lastEmptied := none, capacity := none,
    lastUpdated := none, timestamp := none }

/-! ## Lemmas on rounding and clamping -/

theorem mathRound_clamp_range (x : ℚ) :
    ∃ n : ℤ, mathRound (max 0 (min 100 x)) = (n : ℚ) ∧ 0 ≤ n ∧ n ≤ 100 := by
  refine ⟨⌊max 0 (min 100 x) + 1 / 2⌋, rfl, ?_, ?_⟩
  · apply Int.floor_nonneg.mpr
    have : (0 : ℚ) ≤ max 0 (min 100 x) := le_max_left _ _
    linarith
  · have h : max 0 (min 100 x) ≤ (100 : ℚ) := max_le (by norm_num) (min_le_left _ _)
    have : ⌊max 0 (min 100 x) + 1 / 2⌋ < (101 : ℤ) := by
      apply Int.floor_lt.mpr
      push_cast
      linarith
    omega

theorem clamp_mathRound_range (x : ℚ) :
    ∃ n : ℤ, max 0 (min 100 (mathRound x)) = (n : ℚ) ∧ 0 ≤ n ∧ n ≤ 100 := by
  refine ⟨max 0 (min 100 ⌊x + 1 / 2⌋), ?_, le_max_left _ _, max_le (by norm_num) (min_le_left _ _)⟩
  simp [mathRound]

theorem simulateDataChanges_mem (binData : List Bin) (rand : ℕ → ℚ) (now : ℤ) (b : Bin)
    (hb : b ∈ simulateDataChanges binData rand now) :
    ∃ bin ∈ binData, ∃ r₁ r₂, b = simulateBin bin r₁ r₂ now := by
  induction binData generalizing rand with
  | nil => simp [simulateDataChanges] at hb
  | cons bin rest ih =>
    simp only [simulateDataChanges, List.mem_cons] at hb
    rcases hb with rfl | hb
    · exact ⟨bin, List.mem_cons_self _ _, rand 0, rand 1, rfl⟩
    · obtain ⟨bin', hmem, r₁, r₂, h⟩ := ih _ hb
      exact ⟨bin', List.mem_cons_of_mem _ hmem, r₁, r₂, h⟩

/-! ## Lemmas on the merge -/

theorem updateBinData_cons (b : Bin) (rest : List Bin) (u : BinUpdate) :
    updateBinData (b :: rest) u =
      if some b.binId = u.binId then spreadBin b u :: rest else b :: updateBinData rest u := by
  unfold updateBinData
  by_cases h : some b.binId = u.binId
  · simp [List.findIdx?_cons, h]
  · simp only [List.findIdx?_cons, h, decide_False, Bool.false_eq_true, if_false]
    rw [List.findIdx?_succ]
    cases List.findIdx? (fun bin => decide (some bin.binId = u.binId)) rest 0 <;> simp

theorem spreadBin_binId_of_match (b : Bin) (u : BinUpdate) (h : some b.binId = u.binId) :
    (spreadBin b u).binId = b.binId := by
  simp [spreadBin, ← h]

theorem getD_getD_self {α : Type} (o : Option α) (x : α) : o.getD (o.getD x) = o.getD x := by
  cases o <;> rfl

theorem or_or_self {α : Type} (o x : Option α) : o.or (o.or x) = o.or x := by
  cases o <;> rfl

theorem spreadBin_idem (b : Bin) (u : BinUpdate) :
    spreadBin (spreadBin b u) u = spreadBin b u := by
  simp [spreadBin, getD_getD_self, or_or_self]

theorem spreadBin_carries (b : Bin) (u : BinUpdate) : carriesFields u (spreadBin b u) := by
  rcases u with ⟨u1, u2, u3, u4, u5, u6, u7, u8, u9, u10⟩
  refine ⟨?_, ?_, ?_, ?_, ?_, ?_, ?_, ?_, ?_, ?_⟩
  · cases u1 <;> simp [spreadBin]
  · cases u2 <;> simp [spreadBin]
  · cases u3 <;> simp [spreadBin]
  · cases u4 <;> simp [spreadBin]
  · cases u5 <;> simp [spreadBin]
  · cases u6 <;> simp [spreadBin]
  · cases u7 <;> simp [spreadBin]
  · cases u8 <;> simp [spreadBin]
  · cases u9 <;> simp [spreadBin]
  · cases u10 <;> simp [spreadBin]

theorem spreadBin_keeps (b : Bin) (u : BinUpdate) : keepsOtherFields u b (spreadBin b u) := by
  refine ⟨?_, ?_, ?_, ?_, ?_, ?_, ?_, ?_, ?_, ?_⟩ <;> intro h <;> simp [spreadBin, h]

theorem updateBinData_of_no_match (binData : List Bin) (u : BinUpdate)
    (h : ∀ b ∈ binData, u.binId ≠ some b.binId) : updateBinData binData u = binData := by
  induction binData with
  | nil => rfl
  | cons b rest ih =>
    have hb : ¬ some b.binId = u.binId := fun e => h b (List.mem_cons_self _ _) e.symm
    rw [updateBinData_cons, if_neg hb, ih (fun c hc => h c (List.mem_cons_of_mem _ hc))]

theorem updateBinData_idem (binData : List Bin) (u : BinUpdate) :
    updateBinData (updateBinData binData u) u = updateBinData binData u := by
  induction binData with
  | nil => rfl
  | cons b rest ih =>
    rw [updateBinData_cons]
    by_cases h : some b.binId = u.binId
    · have h' : some (spreadBin b u).binId = u.binId := by
        rw [spreadBin_binId_of_match b u h]; exact h
      rw [if_pos h, updateBinData_cons, if_pos h', spreadBin_idem]
    · rw [if_neg h, updateBinData_cons, if_neg h, ih]

/-- The first record that has the `binId` of the update is replaced by the spread. -/
theorem updateBinData_of_match (binData : List Bin) (u : BinUpdate)
    (h : ∃ b ∈ binData, u.binId = some b.binId) :
    ∃ (index : ℕ) (old : Bin), binData[index]? = some old ∧ u.binId = some old.binId ∧
      (∀ j < index, ∀ b, binData[j]? = some b → u.binId ≠ some b.binId) ∧
      updateBinData binData u = binData.set index (spreadBin old u) := by
  induction binData with
  | nil => simp at h
  | cons b rest ih =>
    rw [updateBinData_cons]
    by_cases hb : some b.binId = u.binId
    · refine ⟨0, b, by simp, hb.symm, fun j hj => absurd hj (Nat.not_lt_zero j), ?_⟩
      rw [if_pos hb]; rfl
    · have hrest : ∃ c ∈ rest, u.binId = some c.binId := by
        obtain ⟨c, hc, hcu⟩ := h
        rcases List.mem_cons.mp hc with rfl | hc
        · exact absurd hcu.symm hb
        · exact ⟨c, hc, hcu⟩
      obtain ⟨i, old, hi, hu, hfirst, hupd⟩ := ih hrest
      refine ⟨i + 1, old, by simpa using hi, hu, ?_, ?_⟩
      · intro j hj c hc
        cases j with
        | zero =>
          simp at hc
          subst hc
          exact fun e => hb e.symm
        | succ j => exact hfirst j (by omega) c (by simpa using hc)
      · rw [if_neg hb, hupd]; rfl

theorem handleWebSocketMessage_binUpdate (binData : List Bin) (payload : BinUpdate) :
    handleWebSocketMessage binData (binUpdateMessage payload) =
      .ok (updateBinData binData payload) := by
  simp [handleWebSocketMessage, binUpdateMessage, WsMessage.ofType]

/-! ## Lemmas on the derived view -/

/-- The three groups of the notification list, in the order they are concatenated. -/
theorem updateNotifications_of_container (page : Page) (settings : Settings)
    (binData : List Bin) (h : page.notifications = true) :
    ∃ notes, updateNotifications page settings binData = some notes ∧
      ∀ n, n ∈ notes ↔
        (n = .success ∧ ∀ bin ∈ binData, ¬ bin.fillLevel ≥ settings.alertThreshold ∧
            ¬ (bin.fillLevel ≥ 70 ∧ bin.fillLevel < settings.alertThreshold) ∧
            ¬ bin.batteryLevel < 30) ∨
        (∃ bin ∈ binData, bin.fillLevel ≥ settings.alertThreshold ∧
            n = .urgent bin.binId bin.fillLevel) ∨
        (∃ bin ∈ binData, (bin.fillLevel ≥ 70 ∧ bin.fillLevel < settings.alertThreshold) ∧
            n = .warning bin.binId bin.fillLevel) ∨
        (∃ bin ∈ binData, bin.batteryLevel < 30 ∧ n = .battery bin.binId bin.batteryLevel) := by
  have hlen : ∀ (l : List Bin) (f : Bin → Notification),
      (if l.length > 0 then ([] : List Notification) ++ l.map f else []) = l.map f := by
    intro l f
    cases l <;> simp
  have hlen' : ∀ (pre : List Notification) (l : List Bin) (f : Bin → Notification),
      (if l.length > 0 then pre ++ l.map f else pre) = pre ++ l.map f := by
    intro pre l f
    cases l <;> simp
  refine ⟨_, by simp only [updateNotifications, h, Bool.not_true, Bool.false_eq_true, if_false]; rfl, ?_⟩
  intro n
  simp only [hlen, hlen']
  split
  · rename_i hempty
    simp only [List.isEmpty_eq_true, List.append_eq_nil, List.map_eq_nil_iff,
      List.filter_eq_nil_iff, decide_eq_true_eq] at hempty
    obtain ⟨⟨hU, hW⟩, hB⟩ := hempty
    constructor
    · intro hn
      left
      exact ⟨List.mem_singleton.mp hn, fun bin hbin => ⟨hU bin hbin, hW bin hbin, hB bin hbin⟩⟩
    · rintro (⟨rfl, -⟩ | ⟨bin, hbin, hge, -⟩ | ⟨bin, hbin, hw, -⟩ | ⟨bin, hbin, hb, -⟩)
      · exact List.mem_singleton.mpr rfl
      · exact absurd hge (hU bin hbin)
      · exact absurd hw (hW bin hbin)
      · exact absurd hb (hB bin hbin)
  · rename_i hne
    simp only [List.isEmpty_eq_true, List.append_eq_nil, List.map_eq_nil_iff,
      List.filter_eq_nil_iff, decide_eq_true_eq] at hne
    simp only [List.mem_append, List.mem_map, List.mem_filter, decide_eq_true_eq]
    constructor
    · rintro ((⟨bin, ⟨hbin, hp⟩, rfl⟩ | ⟨bin, ⟨hbin, hp⟩, rfl⟩) | ⟨bin, ⟨hbin, hp⟩, rfl⟩)
      · exact Or.inr (Or.inl ⟨bin, hbin, hp, rfl⟩)
      · exact Or.inr (Or.inr (Or.inl ⟨bin, hbin, hp, rfl⟩))
      · exact Or.inr (Or.inr (Or.inr ⟨bin, hbin, hp, rfl⟩))
    · rintro (⟨rfl, hall⟩ | ⟨bin, hbin, hp, rfl⟩ | ⟨bin, hbin, hp, rfl⟩ | ⟨bin, hbin, hp, rfl⟩)
      · exact absurd ⟨⟨fun b hb => (hall b hb).1, fun b hb => (hall b hb).2.1⟩,
          fun b hb => (hall b hb).2.2⟩ hne
      · exact Or.inl (Or.inl ⟨bin, ⟨hbin, hp⟩, rfl⟩)
      · exact Or.inl (Or.inr ⟨bin, ⟨hbin, hp⟩, rfl⟩)
      · exact Or.inr ⟨bin, ⟨hbin, hp⟩, rfl⟩

/-! ## Lemmas on the reconnect policy -/

theorem initialClientState_inv : initialClientState.Inv := by decide

theorem clientStep_inv (s : ClientState) (e : ClientEvent) (h : s.Inv) :
    (clientStep s e).Inv := by
  rcases s with ⟨conn, rc, mr, ip, pl, ch, pr⟩
  obtain ⟨h1, h2, h3, h4, h5⟩ := h
  simp only at h1 h2 h3 h4 h5
  subst h1
  have h5' : pr = 0 ∨ rc < 3 := by
    rcases Nat.eq_zero_or_pos pr with hpr | hpr
    · exact Or.inl hpr
    · exact Or.inr (h5 hpr)
  have h3' : ip = false ∨ (ch = 0 ∧ pr = 0) := by
    cases ip
    · exact Or.inl rfl
    · right; have := h3 rfl; omega
  clear h3 h5
  cases e <;> cases conn <;> cases ip <;>
    simp only [clientStep, onClose, onRetryTimer, initializeWebSocket, handleConnectionChange,
      ClientState.Inv] <;>
    (try split_ifs) <;>
    (first
      | contradiction
      | (refine ⟨rfl, ?_, ?_, ?_, ?_⟩ <;> (try dsimp only) <;>
          first
            | omega
            | (simp at h3'; omega)
            | (intro hyp
               first
                 | omega
                 | exact absurd hyp (by decide))))

theorem clientRun_inv (s : ClientState) (events : List ClientEvent) (h : s.Inv) :
    (clientRun s events).Inv := by
  induction events generalizing s with
  | nil => exact h
  | cons e rest ih => exact ih _ (clientStep_inv s e h)

theorem channelClosed_at_bound (s : ClientState) (hmax : s.maxRetries = 3)
    (hcount : s.retryCount = 3) :
    (clientStep s .channelClosed).pendingRetries = s.pendingRetries := by
  simp only [clientStep, onClose]
  split_ifs with hch hlt
  · simp only at hlt
    omega
  · rfl
  · rfl

/-! ## Lemmas on the store -/

theorem findOne_eq_none_iff (store : List Bin) (binId : ℤ) :
    findOne store binId = none ↔ ∀ bin ∈ store, bin.binId ≠ binId := by
  simp [findOne, List.find?_eq_none]

theorem findOne_append_new (store : List Bin) (newBin : Bin)
    (h : ∀ bin ∈ store, bin.binId ≠ newBin.binId) :
    findOne (store ++ [newBin]) newBin.binId = some newBin := by
  have hnone : List.find? (fun bin => decide (bin.binId = newBin.binId)) store = none := by
    simpa [List.find?_eq_none] using h
  simp [findOne, List.find?_append, hnone]

theorem findOneAndUpdate_eq_none_iff (store : List Bin) (binId : ℤ) (update : BinUpdate) :
    findOneAndUpdate store binId update = none ↔ ∀ bin ∈ store, bin.binId ≠ binId := by
  induction store with
  | nil => simp [findOneAndUpdate]
  | cons doc rest ih =>
    by_cases h : doc.binId = binId
    · simp [findOneAndUpdate, h]
    · cases hrest : findOneAndUpdate rest binId update with
      | none => simpa [findOneAndUpdate, h, hrest] using ih.mp hrest
      | some r =>
        obtain ⟨updated, rest'⟩ := r
        have : ¬ ∀ bin ∈ rest, bin.binId ≠ binId := fun hall => by
          rw [ih.mpr hall] at hrest; cases hrest
        simp only [findOneAndUpdate, h, if_false, hrest, List.mem_cons, forall_eq_or_imp]
        constructor
        · intro hc; cases hc
        · intro hc; exact absurd hc.2 this

/-- What a successful `findOneAndUpdate` did: one document with the `binId` was replaced
in place by its spread; the others are as they were. -/
theorem findOneAndUpdate_eq_some (store : List Bin) (binId : ℤ) (update : BinUpdate)
    (updated : Bin) (store' : List Bin)
    (h : findOneAndUpdate store binId update = some (updated, store')) :
    ∃ (before after : List Bin) (doc : Bin), store = before ++ doc :: after ∧
      doc.binId = binId ∧ (∀ bin ∈ before, bin.binId ≠ binId) ∧
      updated = spreadBin doc update ∧ store' = before ++ updated :: after := by
  induction store generalizing store' with
  | nil => simp [findOneAndUpdate] at h
  | cons doc rest ih =>
    by_cases hd : doc.binId = binId
    · simp only [findOneAndUpdate, hd, if_true, Option.some.injEq, Prod.mk.injEq] at h
      obtain ⟨rfl, rfl⟩ := h
      exact ⟨[], rest, doc, rfl, hd, by simp, rfl, rfl⟩
    · cases hrest : findOneAndUpdate rest binId update with
      | none => simp [findOneAndUpdate, hd, hrest] at h
      | some r =>
        obtain ⟨updated', rest'⟩ := r
        simp only [findOneAndUpdate, hd, if_false, hrest, Option.some.injEq, Prod.mk.injEq] at h
        obtain ⟨rfl, rfl⟩ := h
        obtain ⟨before, after, d, hstore, hdid, hbefore, hupd, hstore'⟩ := ih rest' hrest
        refine ⟨doc :: before, after, d, by simp [hstore], hdid, ?_, hupd, by simp [hstore']⟩
        intro bin hbin
        rcases List.mem_cons.mp hbin with rfl | hbin
        · exact hd
        · exact hbefore bin hbin

theorem findOneAndDelete_eq_none_iff (store : List Bin) (binId : ℤ) :
    findOneAndDelete store binId = none ↔ ∀ bin ∈ store, bin.binId ≠ binId := by
  induction store with
  | nil => simp [findOneAndDelete]
  | cons doc rest ih =>
    by_cases h : doc.binId = binId
    · simp [findOneAndDelete, h]
    · cases hrest : findOneAndDelete rest binId with
      | none => simpa [findOneAndDelete, h, hrest] using ih.mp hrest
      | some r =>
        obtain ⟨deleted, rest'⟩ := r
        have : ¬ ∀ bin ∈ rest, bin.binId ≠ binId := fun hall => by
          rw [ih.mpr hall] at hrest; cases hrest
        simp only [findOneAndDelete, h, if_false, hrest, List.mem_cons, forall_eq_or_imp]
        constructor
        · intro hc; cases hc
        · intro hc; exact absurd hc.2 this

theorem findOneAndDelete_eq_some (store : List Bin) (binId : ℤ)
    (deleted : Bin) (store' : List Bin)
    (h : findOneAndDelete store binId = some (deleted, store')) :
    ∃ (before after : List Bin), store = before ++ deleted :: after ∧
      deleted.binId = binId ∧ (∀ bin ∈ before, bin.binId ≠ binId) ∧
      store' = before ++ after := by
  induction store generalizing store' with
  | nil => simp [findOneAndDelete] at h
  | cons doc rest ih =>
    by_cases hd : doc.binId = binId
    · simp only [findOneAndDelete, hd, if_true, Option.some.injEq, Prod.mk.injEq] at h
      obtain ⟨rfl, rfl⟩ := h
      exact ⟨[], _, rfl, hd, by simp, rfl⟩
    · cases hrest : findOneAndDelete rest binId with
      | none => simp [findOneAndDelete, hd, hrest] at h
      | some r =>
        obtain ⟨deleted', rest'⟩ := r
        simp only [findOneAndDelete, hd, if_false, hrest, Option.some.injEq, Prod.mk.injEq] at h
        obtain ⟨rfl, rfl⟩ := h
        obtain ⟨before, after, hstore, hdid, hbefore, hstore'⟩ := ih rest' hrest
        refine ⟨doc :: before, after, by simp [hstore], hdid, ?_, by simp [hstore']⟩
        intro bin hbin
        rcases List.mem_cons.mp hbin with rfl | hbin
        · exact hd
        · exact hbefore bin hbin

theorem postBin_reject (store : List Bin) (body : CreateBinBody) (now : ℤ)
    (h : body.binId = none ∨ body.binId = some 0 ∨ body.location = none ∨
      body.location = some "" ∨ ∃ binId, body.binId = some binId ∧ ∃ bin ∈ store, bin.binId = binId) :
    postBin store body now = { store := store, effects := [.respond 400 none] } := by
  rcases body with ⟨bid, loc, cap⟩
  cases bid with
  | none => cases loc <;> rfl
  | some binId =>
    cases loc with
    | none => rfl
    | some location =>
      simp only [postBin]
      by_cases hg : binId = 0 ∨ location = ""
      · rw [if_pos hg]
      · rw [if_neg hg]
        have hex : ∃ bin ∈ store, bin.binId = binId := by
          rcases h with h | h | h | h | ⟨b, hb, hex⟩
          · cases h
          · simp only [Option.some.injEq] at h; exact absurd (Or.inl h) hg
          · cases h
          · simp only [Option.some.injEq] at h; exact absurd (Or.inr h) hg
          · simp only [Option.some.injEq] at hb; subst hb; exact hex
        cases hf : findOne store binId with
        | some found => rfl
        | none =>
          obtain ⟨bin, hbin, hid⟩ := hex
          exact absurd hid ((findOne_eq_none_iff store binId).mp hf bin hbin)

theorem postBin_accept (store : List Bin) (binId : ℤ) (location : String)
    (capacity : Option ℚ) (now : ℤ) (hid : binId ≠ 0) (hloc : location ≠ "")
    (hfree : ∀ bin ∈ store, bin.binId ≠ binId) :
    postBin store { binId := some binId, location := some location, capacity := capacity } now =
      { store := store ++ [createdBin binId location (capacity.getD 100) now]
        effects := [.saved (createdBin binId location (capacity.getD 100) now),
          .emit (.bin_added (createdBin binId location (capacity.getD 100) now)),
          .respond 201 (some (createdBin binId location (capacity.getD 100) now))] } := by
  have hf : findOne store binId = none := (findOne_eq_none_iff store binId).mpr hfree
  simp [postBin, hid, hloc, hf]

theorem putBin_of_none (store : List Bin) (binId : ℤ) (updateData : BinUpdate) (now : ℤ)
    (h : findOneAndUpdate store binId { updateData with lastUpdated := some now } = none) :
    putBin store binId updateData now = { store := store, effects := [.respond 404 none] } := by
  simp [putBin, h]

theorem putBin_of_some (store : List Bin) (binId : ℤ) (updateData : BinUpdate) (now : ℤ)
    (updatedBin : Bin) (store' : List Bin)
    (h : findOneAndUpdate store binId { updateData with lastUpdated := some now } =
      some (updatedBin, store')) :
    putBin store binId updateData now =
      { store := store'
        effects := [.updated updatedBin, .emit (.bin_updated updatedBin),
          .respond 200 (some updatedBin)] } := by
  simp [putBin, h]

theorem deleteBin_of_none (store : List Bin) (binId : ℤ)
    (h : findOneAndDelete store binId = none) :
    deleteBin store binId = { store := store, effects := [.respond 404 none] } := by
  simp [deleteBin, h]

theorem deleteBin_of_some (store : List Bin) (binId : ℤ) (deletedBin : Bin)
    (store' : List Bin) (h : findOneAndDelete store binId = some (deletedBin, store')) :
    deleteBin store binId =
      { store := store'
        effects := [.deleted deletedBin, .emit (.bin_deleted binId), .respond 200 none] } := by
  simp [deleteBin, h]

theorem findOneAndUpdate_isSome_of_mem (store : List Bin) (binId : ℤ) (update : BinUpdate)
    (h : ∃ bin ∈ store, bin.binId = binId) :
    ∃ updated store', findOneAndUpdate store binId update = some (updated, store') := by
  cases hres : findOneAndUpdate store binId update with
  | none =>
    obtain ⟨bin, hbin, hid⟩ := h
    exact absurd hid ((findOneAndUpdate_eq_none_iff store binId update).mp hres bin hbin)
  | some r => exact ⟨r.1, r.2, rfl⟩

theorem findOneAndUpdate_keeps_binId (store : List Bin) (binId : ℤ) (update : BinUpdate)
    (updated : Bin) (store' : List Bin)
    (h : findOneAndUpdate store binId update = some (updated, store'))
    (hkey : update.binId = none ∨ update.binId = some binId) :
    updated.binId = binId ∧ store'.map (fun bin => bin.binId) = store.map (fun bin => bin.binId) := by
  obtain ⟨before, after, doc, hstore, hid, -, hupd, hstore'⟩ :=
    findOneAndUpdate_eq_some store binId update updated store' h
  have hb : updated.binId = binId := by
    rw [hupd]
    rcases hkey with hk | hk <;> simp [spreadBin, hk, hid]
  refine ⟨hb, ?_⟩
  rw [hstore, hstore']
  simp [hb, hid]

theorem postBin_store (store : List Bin) (body : CreateBinBody) (now : ℤ) :
    (postBin store body now).store = store ∨
    ∃ binId location capacity,
      (postBin store body now).store = store ++ [createdBin binId location capacity now] := by
  rcases body with ⟨bid, loc, cap⟩
  by_cases hrej : bid = none ∨ bid = some 0 ∨ loc = none ∨ loc = some "" ∨
      ∃ b, bid = some b ∧ ∃ bin ∈ store, bin.binId = b
  · left
    rw [postBin_reject store _ now hrej]
  · right
    cases bid with
    | none => exact absurd (Or.inl rfl) hrej
    | some b =>
      cases loc with
      | none => exact absurd (Or.inr (Or.inr (Or.inl rfl))) hrej
      | some x =>
        have hb : b ≠ 0 := fun h => hrej (Or.inr (Or.inl (by rw [h])))
        have hx : x ≠ "" := fun h => hrej (Or.inr (Or.inr (Or.inr (Or.inl (by rw [h])))))
        have hfree : ∀ bin ∈ store, bin.binId ≠ b := fun bin hbin hid =>
          hrej (Or.inr (Or.inr (Or.inr (Or.inr ⟨b, rfl, bin, hbin, hid⟩))))
        rw [postBin_accept store b x cap now hb hx hfree]
        exact ⟨_, _, _, rfl⟩

theorem postBin_levelsInRange (store : List Bin) (body : CreateBinBody) (now : ℤ)
    (h : ∀ bin ∈ store, bin.levelsInRange) :
    ∀ bin ∈ (postBin store body now).store, bin.levelsInRange := by
  rcases postBin_store store body now with hs | ⟨binId, location, capacity, hs⟩
  · rw [hs]; exact h
  · rw [hs]
    intro bin hbin
    rcases List.mem_append.mp hbin with hb | hb
    · exact h bin hb
    · rw [List.mem_singleton.mp hb]
      simp [Bin.levelsInRange, createdBin]

theorem simulatorFillLevel_range (fillLevel r : ℚ) :
    0 ≤ simulatorFillLevel fillLevel r ∧ simulatorFillLevel fillLevel r ≤ 100 := by
  obtain ⟨n, hn, h0, h100⟩ := mathRound_clamp_range (fillLevel + (r - 1 / 2) * 5)
  unfold simulatorFillLevel
  simp only
  rw [hn]
  exact ⟨by exact_mod_cast h0, by exact_mod_cast h100⟩

theorem simulatorTick_levelsInRange (store : List Bin) (rPick rFill : ℚ) (now : ℤ)
    (h : ∀ bin ∈ store, bin.levelsInRange) :
    ∀ bin ∈ (simulatorTick store rPick rFill now).store, bin.levelsInRange := by
  unfold simulatorTick
  split_ifs with hlen
  · simp only
    split
    · exact h
    · rename_i randomBin hpick
      split
      · exact h
      · rename_i updatedBin store' hupd
        obtain ⟨before, after, doc, hstore, -, -, hu, hstore'⟩ :=
          findOneAndUpdate_eq_some store _ _ updatedBin store' hupd
        intro bin hbin
        simp only [hstore', List.mem_append, List.mem_cons] at hbin
        have hdoc : doc.levelsInRange := h doc (by simp [hstore])
        rcases hbin with hb | rfl | hb
        · exact h bin (by simp [hstore, hb])
        · rw [hu]
          obtain ⟨h0, h100⟩ := simulatorFillLevel_range randomBin.fillLevel rFill
          exact ⟨by simpa [spreadBin] using h0, by simpa [spreadBin] using h100,
            by simpa [spreadBin] using hdoc.2.2.1, by simpa [spreadBin] using hdoc.2.2.2⟩
        · exact h bin (by simp [hstore, hb])
  · exact h

/-! ## Lemmas on the quick stats, the battery drain and the fetched bins -/

theorem foldl_fillLevel_eq_sum (binData : List Bin) (init : ℚ) :
    binData.foldl (fun sum bin => sum + bin.fillLevel) init =
      init + (binData.map (fun bin => bin.fillLevel)).sum := by
  induction binData generalizing init with
  | nil => simp
  | cons bin rest ih => simp [List.foldl_cons, ih, add_assoc]

theorem sum_fillLevel_bounds (binData : List Bin)
    (h : ∀ bin ∈ binData, 0 ≤ bin.fillLevel ∧ bin.fillLevel ≤ 100) :
    0 ≤ (binData.map (fun bin => bin.fillLevel)).sum ∧
    (binData.map (fun bin => bin.fillLevel)).sum ≤ 100 * binData.length := by
  induction binData with
  | nil => simp
  | cons bin rest ih =>
    obtain ⟨h0, h100⟩ := h bin (List.mem_cons_self _ _)
    obtain ⟨ih0, ih100⟩ := ih (fun b hb => h b (List.mem_cons_of_mem _ hb))
    simp only [List.map_cons, List.sum_cons, List.length_cons, Nat.cast_add, Nat.cast_one]
    constructor <;> linarith

theorem mathRound_range_of_range (x : ℚ) (h0 : 0 ≤ x) (h100 : x ≤ 100) :
    ∃ n : ℤ, mathRound x = (n : ℚ) ∧ 0 ≤ n ∧ n ≤ 100 := by
  have hclamp : max 0 (min 100 x) = x := by
    rw [min_eq_right h100, max_eq_right h0]
  have := mathRound_clamp_range x
  rwa [hclamp] at this

/-- On a non-empty mirror whose fill levels are in [0,100] the quick stats are the count,
the rounded mean (an integer in [0,100]) and the two counts over 70 and over the
threshold. -/
theorem updateQuickStats_of_nonempty (settings : Settings) (binData : List Bin) (r₁ r₂ : ℚ)
    (hne : binData ≠ [])
    (h : ∀ bin ∈ binData, 0 ≤ bin.fillLevel ∧ bin.fillLevel ≤ 100) :
    (updateQuickStats settings binData r₁ r₂).totalBins = binData.length ∧
    (updateQuickStats settings binData r₁ r₂).avgFill =
      some (mathRound ((binData.map (fun bin => bin.fillLevel)).sum / binData.length)) ∧
    (∃ n : ℤ, (updateQuickStats settings binData r₁ r₂).avgFill = some (n : ℚ) ∧
      0 ≤ n ∧ n ≤ 100) ∧
    (updateQuickStats settings binData r₁ r₂).collectionDue =
      binData.countP (fun bin => bin.fillLevel ≥ 70) ∧
    (updateQuickStats settings binData r₁ r₂).fullBins =
      binData.countP (fun bin => bin.fillLevel ≥ settings.alertThreshold) := by
  have hlen : binData.length ≠ 0 := fun h0 => hne (List.length_eq_zero.mp h0)
  have hpos : (0 : ℚ) < binData.length := by exact_mod_cast Nat.pos_of_ne_zero hlen
  have havg : (updateQuickStats settings binData r₁ r₂).avgFill =
      some (mathRound ((binData.map (fun bin => bin.fillLevel)).sum / binData.length)) := by
    simp [updateQuickStats, hlen, foldl_fillLevel_eq_sum]
  obtain ⟨hs0, hs100⟩ := sum_fillLevel_bounds binData h
  have hm0 : 0 ≤ (binData.map (fun bin => bin.fillLevel)).sum / binData.length :=
    div_nonneg hs0 (le_of_lt hpos)
  have hm100 : (binData.map (fun bin => bin.fillLevel)).sum / binData.length ≤ 100 := by
    rw [div_le_iff₀ hpos]; exact hs100
  obtain ⟨n, hn, hn0, hn100⟩ := mathRound_range_of_range _ hm0 hm100
  refine ⟨rfl, havg, ⟨n, by rw [havg, hn], hn0, hn100⟩, ?_, ?_⟩
  · simp [updateQuickStats, List.countP_eq_length_filter]
  · simp [updateQuickStats, List.countP_eq_length_filter]

/-- A battery level of at least 20 never rises in a step and stays in [20,100]. -/
theorem simulateBin_battery_of_ge_20 (bin : Bin) (r₁ r₂ : ℚ) (now : ℤ)
    (h20 : 20 ≤ bin.batteryLevel) (h100 : bin.batteryLevel ≤ 100) :
    (simulateBin bin r₁ r₂ now).batteryLevel ≤ bin.batteryLevel ∧
    20 ≤ (simulateBin bin r₁ r₂ now).batteryLevel ∧
    (simulateBin bin r₁ r₂ now).batteryLevel ≤ 100 := by
  simp only [simulateBin]
  split_ifs
  · refine ⟨max_le h20 (by linarith), le_max_left _ _, max_le (by norm_num) (by linarith)⟩
  · exact ⟨le_refl _, h20, h100⟩

theorem processBinData_length (rawData : List RawBin) (rand : ℕ → ℚ) (now : ℤ) :
    (processBinData rawData rand now).length = rawData.length := by
  induction rawData generalizing rand with
  | nil => rfl
  | cons bin rest ih => simp [processBinData, ih]

/-- A raw bin whose battery level and temperature are present and not 0 and whose sensor
status is present and not empty keeps them, with its `binId` and fill level. -/
theorem processBin_keeps_truthy (bin : RawBin) (rand : ℕ → ℚ) (now : ℤ)
    (battery temperature : ℚ) (status : String)
    (hb : bin.batteryLevel = some battery) (hb0 : battery ≠ 0)
    (ht : bin.temperature = some temperature) (ht0 : temperature ≠ 0)
    (hs : bin.sensorStatus = some status) (hs0 : status ≠ "") :
    (processBin bin rand now).1.binId = bin.binId ∧
    (processBin bin rand now).1.fillLevel = bin.fillLevel ∧
    (processBin bin rand now).1.batteryLevel = battery ∧
    (processBin bin rand now).1.temperature = temperature ∧
    (processBin bin rand now).1.sensorStatus = status := by
  cases hl : bin.lastEmptied <;>
    simp [processBin, hb, ht, hs, hl, falsyNumber, falsyString, hb0, ht0, hs0]

theorem clamp_mathRound_comm (x : ℚ) :
    mathRound (max 0 (min 100 x)) = max 0 (min 100 (mathRound x)) := by
  have hmono : ∀ a b : ℚ, a ≤ b → mathRound a ≤ mathRound b := by
    intro a b hab
    unfold mathRound
    exact_mod_cast Int.floor_mono (by linarith)
  have h0 : mathRound 0 = 0 := by
    unfold mathRound
    have : ⌊(0 : ℚ) + 1 / 2⌋ = 0 := by
      rw [Int.floor_eq_iff]; constructor <;> norm_num
    rw [this]; simp
  have h100 : mathRound 100 = 100 := by
    unfold mathRound
    have : ⌊(100 : ℚ) + 1 / 2⌋ = 100 := by
      rw [Int.floor_eq_iff]; constructor <;> norm_num
    rw [this]; simp
  rcases le_total x 0 with hx | hx
  · have h1 : max 0 (min 100 x) = 0 := by
      rw [min_eq_right (by linarith), max_eq_left hx]
    have h2 : mathRound x ≤ 0 := h0 ▸ hmono x 0 hx
    rw [h1, h0, min_eq_right (by linarith), max_eq_left h2]
  · rcases le_total x 100 with hx' | hx'
    · have h1 : max 0 (min 100 x) = x := by
        rw [min_eq_right hx', max_eq_right hx]
      have h2 : 0 ≤ mathRound x := h0 ▸ hmono 0 x hx
      have h3 : mathRound x ≤ 100 := h100 ▸ hmono x 100 hx'
      rw [h1, min_eq_right h3, max_eq_right h2]
    · have h1 : max 0 (min 100 x) = 100 := by
        rw [min_eq_left hx', max_eq_right (by norm_num)]
      have h3 : 100 ≤ mathRound x := h100 ▸ hmono 100 x hx'
      rw [h1, h100, min_eq_left h3, max_eq_right (by norm_num)]

theorem clamp_round_comm_real (x : ℝ) :
    ((⌊max 0 (min 100 x) + 1 / 2⌋ : ℤ) : ℝ) = max 0 (min 100 ((⌊x + 1 / 2⌋ : ℤ) : ℝ)) := by
  have hmono : ∀ a b : ℝ, a ≤ b → ((⌊a + 1 / 2⌋ : ℤ) : ℝ) ≤ ((⌊b + 1 / 2⌋ : ℤ) : ℝ) := by
    intro a b hab
    exact_mod_cast Int.floor_mono (by linarith)
  have h0 : ((⌊(0 : ℝ) + 1 / 2⌋ : ℤ) : ℝ) = 0 := by
    have : ⌊(0 : ℝ) + 1 / 2⌋ = 0 := by
      rw [Int.floor_eq_iff]; constructor <;> norm_num
    rw [this]; simp
  have h100 : ((⌊(100 : ℝ) + 1 / 2⌋ : ℤ) : ℝ) = 100 := by
    have : ⌊(100 : ℝ) + 1 / 2⌋ = 100 := by
      rw [Int.floor_eq_iff]; constructor <;> norm_num
    rw [this]; simp
  rcases le_total x 0 with hx | hx
  · have h1 : max 0 (min 100 x) = 0 := by
      rw [min_eq_right (by linarith), max_eq_left hx]
    have h2 : ((⌊x + 1 / 2⌋ : ℤ) : ℝ) ≤ 0 := h0 ▸ hmono x 0 hx
    rw [h1, h0, min_eq_right (by linarith), max_eq_left h2]
  · rcases le_total x 100 with hx' | hx'
    · have h1 : max 0 (min 100 x) = x := by
        rw [min_eq_right hx', max_eq_right hx]
      have h2 : 0 ≤ ((⌊x + 1 / 2⌋ : ℤ) : ℝ) := h0 ▸ hmono 0 x hx
      have h3 : ((⌊x + 1 / 2⌋ : ℤ) : ℝ) ≤ 100 := h100 ▸ hmono x 100 hx'
      rw [h1, min_eq_right h3, max_eq_right h2]
    · have h1 : max 0 (min 100 x) = 100 := by
        rw [min_eq_left hx', max_eq_right (by norm_num)]
      have h3 : 100 ≤ ((⌊x + 1 / 2⌋ : ℤ) : ℝ) := h100 ▸ hmono 100 x hx'
      rw [h1, h100, min_eq_left h3, max_eq_right (by norm_num)]

/-! ## Lemmas on the login route -/

theorem findUser_of_first (users : List User) (name : String) (user : User)
    (h : firstUserNamed users name user) : findUser users name = some user := by
  obtain ⟨before, after, hu, hname, hbefore⟩ := h
  rw [findUser, List.find?_eq_some]
  refine ⟨by simpa using hname, before, after, hu, ?_⟩
  intro u hu'
  simpa using hbefore u hu'

theorem first_of_findUser (users : List User) (name : String) (user : User)
    (h : findUser users name = some user) : firstUserNamed users name user := by
  rw [findUser, List.find?_eq_some] at h
  obtain ⟨hname, before, after, hu, hbefore⟩ := h
  refine ⟨before, after, hu, by simpa using hname, ?_⟩
  intro u hu'
  simpa using hbefore u hu'

theorem findUser_eq_none_iff (users : List User) (name : String) :
    findUser users name = none ↔ ∀ u ∈ users, u.username ≠ name := by
  simp [findUser]

theorem login_of_given (toLowerCase : String → String)
    (comparePassword : User → String → Bool) (users : List User) (username password : String)
    (hune : username ≠ "") (hpne : password ≠ "") :
    login toLowerCase comparePassword users
        { username := some username, password := some password } =
      match findUser users (toLowerCase username) with
      | none => { status := 401, token := none }
      | some user =>
        if user.isActive = true ∧ comparePassword user password = true then
          { status := 200, token := some (tokenFor user) }
        else { status := 401, token := none } := by
  simp only [login, hune, hpne, or_self, if_false]
  cases hf : findUser users (toLowerCase username) with
  | none => rfl
  | some user =>
    cases ha : user.isActive <;> cases hc : comparePassword user password <;>
      simp [ha, hc, tokenFor]

/-! ## Lemmas on the handlers with a store that can fail -/

theorem postBinHandler_healthy (store : List Bin) (body : CreateBinBody) (now : ℤ) :
    postBinHandler StoreCalls.healthy store body now = postBin store body now := by
  rcases body with ⟨bid, loc, cap⟩
  cases bid <;> cases loc <;> simp [postBinHandler, postBin, StoreCalls.healthy]

theorem putBinHandler_healthy (store : List Bin) (binId : ℤ) (updateData : BinUpdate)
    (now : ℤ) :
    putBinHandler StoreCalls.healthy store binId updateData now =
      putBin store binId updateData now := by
  simp [putBinHandler, putBin, StoreCalls.healthy]

theorem deleteBinHandler_healthy (store : List Bin) (binId : ℤ) :
    deleteBinHandler StoreCalls.healthy store binId = deleteBin store binId := by
  simp [deleteBinHandler, deleteBin, StoreCalls.healthy]

theorem findOneAndUpdate_of_first (store : List Bin) (binId : ℤ) (update : BinUpdate)
    (before : List Bin) (doc : Bin) (after : List Bin)
    (h : firstWithBinId store binId before doc after) :
    findOneAndUpdate store binId update =
      some (spreadBin doc update, before ++ spreadBin doc update :: after) := by
  obtain ⟨hstore, hid, hbefore⟩ := h
  subst hstore
  induction before with
  | nil => simp [findOneAndUpdate, hid]
  | cons b rest ih =>
    have hb : b.binId ≠ binId := hbefore b (List.mem_cons_self _ _)
    have := ih (fun c hc => hbefore c (List.mem_cons_of_mem _ hc))
    simp [findOneAndUpdate, hb, this]

theorem findOneAndDelete_of_first (store : List Bin) (binId : ℤ)
    (before : List Bin) (doc : Bin) (after : List Bin)
    (h : firstWithBinId store binId before doc after) :
    findOneAndDelete store binId = some (doc, before ++ after) := by
  obtain ⟨hstore, hid, hbefore⟩ := h
  subst hstore
  induction before with
  | nil => simp [findOneAndDelete, hid]
  | cons b rest ih =>
    have hb : b.binId ≠ binId := hbefore b (List.mem_cons_self _ _)
    have := ih (fun c hc => hbefore c (List.mem_cons_of_mem _ hc))
    simp [findOneAndDelete, hb, this]

theorem exists_first_of_mem (store : List Bin) (binId : ℤ)
    (h : ∃ bin ∈ store, bin.binId = binId) :
    ∃ before doc after, firstWithBinId store binId before doc after := by
  induction store with
  | nil => simp at h
  | cons b rest ih =>
    by_cases hb : b.binId = binId
    · exact ⟨[], b, rest, rfl, hb, by simp⟩
    · have hrest : ∃ bin ∈ rest, bin.binId = binId := by
        obtain ⟨c, hc, hcid⟩ := h
        rcases List.mem_cons.mp hc with rfl | hc
        · exact absurd hcid hb
        · exact ⟨c, hc, hcid⟩
      obtain ⟨before, doc, after, hstore, hid, hbefore⟩ := ih hrest
      refine ⟨b :: before, doc, after, by simp [hstore], hid, ?_⟩
      intro c hc
      rcases List.mem_cons.mp hc with rfl | hc
      · exact hb
      · exact hbefore c hc

/-! ## Statements -/

/-- C1: for every current fill level and every draw, the fill level written by a server
simulator tick is an integer in [0,100], and so is the fill level of every bin after one
client fallback step `simulateDataChanges`. -/
theorem C1_clamp_property :
    (∀ fillLevel r : ℚ, ∃ n : ℤ, simulatorFillLevel fillLevel r = (n : ℚ) ∧ 0 ≤ n ∧ n ≤ 100) ∧
    (∀ (bin : Bin) (r₁ r₂ : ℚ) (now : ℤ),
      ∃ n : ℤ, (simulateBin bin r₁ r₂ now).fillLevel = (n : ℚ) ∧ 0 ≤ n ∧ n ≤ 100) ∧
    (∀ (binData : List Bin) (rand : ℕ → ℚ) (now : ℤ), ∀ b ∈ simulateDataChanges binData rand now,
      ∃ n : ℤ, b.fillLevel = (n : ℚ) ∧ 0 ≤ n ∧ n ≤ 100) := by
  refine ⟨fun fillLevel r => mathRound_clamp_range _, fun bin r₁ r₂ now => ?_, ?_⟩
  · exact clamp_mathRound_range _
  · intro binData rand now b hb
    obtain ⟨bin, _, r₁, r₂, rfl⟩ := simulateDataChanges_mem binData rand now b hb
    exact clamp_mathRound_range _

/-- C2 (as stated, refuted): bin 4 is in the mirror at 89 %; the server's `bin_updated`
event for bin 4 at 95 %, and its `fill_level_update` event for bin 4 at 95 %, both fall
into the `default` branch of the `switch`, and the mirror record keeps 89 %. -/
theorem C2_server_update_events_not_merged :
    handleWebSocketMessage [defaultBin4] (ChangeEvent.toMessage (.bin_updated bin4At95)) =
      .ok [defaultBin4] ∧
    handleWebSocketMessage [defaultBin4] (ChangeEvent.toMessage (.fill_level_update 4 95)) =
      .ok [defaultBin4] ∧
    defaultBin4.binId = 4 ∧ bin4At95.binId = 4 ∧
    defaultBin4.fillLevel = 89 ∧ bin4At95.fillLevel = 95 ∧ defaultBin4.fillLevel ≠ 95 := by
  refine ⟨rfl, rfl, rfl, rfl, rfl, rfl, ?_⟩
  simp [defaultBin4]

/-- C2 (amended): for every mirror and every message `{type: 'bin_update', payload}`
whose `payload.binId` is the `binId` of a record of the mirror, `handleWebSocketMessage`
returns normally; the mirror keeps its length; the first record with that `binId`
carries every field present in the payload and keeps its other fields; every record at
another index is unchanged. -/
theorem C2_bin_update_merges_payload (binData : List Bin) (payload : BinUpdate)
    (h : ∃ b ∈ binData, payload.binId = some b.binId) :
    ∃ (binData' : List Bin) (index : ℕ) (old new : Bin),
      handleWebSocketMessage binData (binUpdateMessage payload) = .ok binData' ∧
      binData'.length = binData.length ∧
      binData[index]? = some old ∧ payload.binId = some old.binId ∧
      (∀ j < index, ∀ b, binData[j]? = some b → payload.binId ≠ some b.binId) ∧
      binData'[index]? = some new ∧
      carriesFields payload new ∧ keepsOtherFields payload old new ∧
      ∀ j, j ≠ index → binData'[j]? = binData[j]? := by
  obtain ⟨index, old, hold, hid, hfirst, hupd⟩ := updateBinData_of_match binData payload h
  have hlt : index < binData.length := by
    rcases Nat.lt_or_ge index binData.length with hlt | hge
    · exact hlt
    · rw [List.getElem?_eq_none hge] at hold
      exact absurd hold (by simp)
  refine ⟨binData.set index (spreadBin old payload), index, old, spreadBin old payload,
    ?_, by simp, hold, hid, hfirst, ?_, spreadBin_carries old payload,
    spreadBin_keeps old payload, ?_⟩
  · rw [handleWebSocketMessage_binUpdate, hupd]
  · simp [List.getElem?_set, hlt]
  · intro j hj
    simp [List.getElem?_set, Ne.symm hj]

/-- C2 (amended), at a concrete input: the payload `{binId: 4, fillLevel: 95}` on a
mirror that holds bin 4. -/
theorem C2_bin_update_merges_payload_witness :
    (∃ b ∈ [defaultBin4], (fillLevelPayload 4 95).binId = some b.binId) ∧
    ∃ (binData' : List Bin) (index : ℕ) (old new : Bin),
      handleWebSocketMessage [defaultBin4] (binUpdateMessage (fillLevelPayload 4 95)) =
        .ok binData' ∧
      binData'.length = [defaultBin4].length ∧
      [defaultBin4][index]? = some old ∧ (fillLevelPayload 4 95).binId = some old.binId ∧
      (∀ j < index, ∀ b, [defaultBin4][j]? = some b →
        (fillLevelPayload 4 95).binId ≠ some b.binId) ∧
      binData'[index]? = some new ∧
      carriesFields (fillLevelPayload 4 95) new ∧
      keepsOtherFields (fillLevelPayload 4 95) old new ∧
      ∀ j, j ≠ index → binData'[j]? = [defaultBin4][j]? :=
  ⟨⟨defaultBin4, List.mem_singleton.mpr rfl, rfl⟩,
    C2_bin_update_merges_payload [defaultBin4] (fillLevelPayload 4 95)
      ⟨defaultBin4, List.mem_singleton.mpr rfl, rfl⟩⟩

/-- C3: an update whose `binId` matches no record of the mirror leaves the mirror exactly
as it was, both through `updateBinData` and through `handleWebSocketMessage` dispatching
a `bin_update` message to it. -/
theorem C3_update_never_creates (binData : List Bin) (updatedBin : BinUpdate)
    (h : ∀ b ∈ binData, updatedBin.binId ≠ some b.binId) :
    updateBinData binData updatedBin = binData ∧
    handleWebSocketMessage binData (binUpdateMessage updatedBin) = .ok binData := by
  have hupd := updateBinData_of_no_match binData updatedBin h
  exact ⟨hupd, by rw [handleWebSocketMessage_binUpdate, hupd]⟩

/-- C3, at a concrete input: an update for bin 9 on a mirror that holds bin 4 only. -/
theorem C3_update_never_creates_witness :
    (∀ b ∈ [defaultBin4], (fillLevelPayload 9 50).binId ≠ some b.binId) ∧
    updateBinData [defaultBin4] (fillLevelPayload 9 50) = [defaultBin4] ∧
    handleWebSocketMessage [defaultBin4] (binUpdateMessage (fillLevelPayload 9 50)) =
      .ok [defaultBin4] :=
  ⟨by simp [fillLevelPayload, defaultBin4],
    C3_update_never_creates [defaultBin4] (fillLevelPayload 9 50)
      (by simp [fillLevelPayload, defaultBin4])⟩

/-- C4: applying the same update twice yields the same mirror as applying it once. -/
theorem C4_update_idempotent (binData : List Bin) (updatedBin : BinUpdate) :
    updateBinData (updateBinData binData updatedBin) updatedBin =
      updateBinData binData updatedBin :=
  updateBinData_idem binData updatedBin

/-- C5 (as stated, refuted): the mirror is empty, so no record has `binId` 7; after the
client handles the server's `bin_added` event for bin 7 the mirror is still empty. -/
theorem C5_bin_added_not_inserted :
    handleWebSocketMessage [] (ChangeEvent.toMessage (.bin_added newBin7)) = .ok [] ∧
    newBin7.binId = 7 ∧ newBin7 ∉ ([] : List Bin) :=
  ⟨rfl, rfl, List.not_mem_nil _⟩

/-- C5 (amended): for every mirror and every `bin_added` event, the mirror after the
client handles the event is the mirror before, whether or not it holds a record with the
`binId` of the event. -/
theorem C5_bin_added_leaves_mirror (binData : List Bin) (bin : Bin) :
    handleWebSocketMessage binData (ChangeEvent.toMessage (.bin_added bin)) = .ok binData := by
  simp [handleWebSocketMessage, ChangeEvent.toMessage, WsMessage.ofType]

/-- C6 (as stated, refuted): the mirror holds bin 4; after the client handles the
server's `bin_deleted` event for `binId` 4 the mirror still holds that record. -/
theorem C6_bin_deleted_not_removed :
    handleWebSocketMessage [defaultBin4] (ChangeEvent.toMessage (.bin_deleted 4)) =
      .ok [defaultBin4] ∧
    defaultBin4.binId = 4 ∧ defaultBin4 ∈ [defaultBin4] :=
  ⟨rfl, rfl, List.mem_singleton.mpr rfl⟩

/-- C6 (amended): for every mirror and every `bin_deleted` event, the mirror after the
client handles the event is the mirror before: every record, with whatever `binId`, is
kept unchanged and in order. -/
theorem C6_bin_deleted_leaves_mirror (binData : List Bin) (binId : ℤ) :
    handleWebSocketMessage binData (ChangeEvent.toMessage (.bin_deleted binId)) =
      .ok binData := by
  simp [handleWebSocketMessage, ChangeEvent.toMessage, WsMessage.ofType]

/-- C7 (as stated, refuted): the mirror holds bin 4 and the `initial_data` event carries
the list with bin 7 only; after the client handles the event the mirror still is the
list with bin 4, not the received list. -/
theorem C7_initial_data_not_replacing :
    handleWebSocketMessage [defaultBin4] (ChangeEvent.toMessage (.initial_data [newBin7])) =
      .ok [defaultBin4] ∧
    [defaultBin4] ≠ [newBin7] :=
  ⟨rfl, by decide⟩

/-- C7 (amended): for every prior mirror and every `initial_data` event, the mirror after
the client handles the event is the prior mirror, whatever list the event carries. -/
theorem C7_initial_data_leaves_mirror (binData bins : List Bin) :
    handleWebSocketMessage binData (ChangeEvent.toMessage (.initial_data bins)) =
      .ok binData := by
  simp [handleWebSocketMessage, ChangeEvent.toMessage, WsMessage.ofType]

/-- C8: `getBinStatusClass` returns `'status-danger'` exactly when the fill level is at
least the alert threshold, `'status-warning'` exactly when it is below the threshold and
at least 60, `'status-ok'` exactly when it is below both; and it returns exactly one of
the three classes. -/
theorem C8_status_classification (settings : Settings) (fillLevel : ℚ) :
    (getBinStatusClass settings fillLevel = "status-danger" ↔
      fillLevel ≥ settings.alertThreshold) ∧
    (getBinStatusClass settings fillLevel = "status-warning" ↔
      fillLevel < settings.alertThreshold ∧ fillLevel ≥ 60) ∧
    (getBinStatusClass settings fillLevel = "status-ok" ↔
      fillLevel < settings.alertThreshold ∧ fillLevel < 60) ∧
    ((getBinStatusClass settings fillLevel = "status-danger" ∧
        getBinStatusClass settings fillLevel ≠ "status-warning" ∧
        getBinStatusClass settings fillLevel ≠ "status-ok") ∨
      (getBinStatusClass settings fillLevel ≠ "status-danger" ∧
        getBinStatusClass settings fillLevel = "status-warning" ∧
        getBinStatusClass settings fillLevel ≠ "status-ok") ∨
      (getBinStatusClass settings fillLevel ≠ "status-danger" ∧
        getBinStatusClass settings fillLevel ≠ "status-warning" ∧
        getBinStatusClass settings fillLevel = "status-ok")) := by
  unfold getBinStatusClass
  by_cases h₁ : fillLevel ≥ settings.alertThreshold
  · have h₁' : ¬ fillLevel < settings.alertThreshold := not_lt.mpr h₁
    simp [h₁, h₁']
  · have h₁' : fillLevel < settings.alertThreshold := not_le.mp h₁
    by_cases h₂ : fillLevel ≥ 60
    · have h₂' : ¬ fillLevel < 60 := not_lt.mpr h₂
      simp [h₁, h₁', h₂, h₂']
    · have h₂' : fillLevel < 60 := not_le.mp h₂
      simp [h₁, h₁', h₂, h₂']

/-- C9: when the page has its notification container, every bin of the mirror whose fill
level is at least the alert threshold is classified `'status-danger'` and the
notification list contains an urgent notification with its `binId` and fill level;
conversely every urgent notification of the list names the `binId` and fill level of a
bin of the mirror whose fill level is at least the threshold, so a bin below the
threshold gets none. -/
theorem C9_danger_notification (page : Page) (settings : Settings) (binData : List Bin)
    (h : page.notifications = true) :
    ∃ notes, updateNotifications page settings binData = some notes ∧
      (∀ bin ∈ binData, bin.fillLevel ≥ settings.alertThreshold →
        getBinStatusClass settings bin.fillLevel = "status-danger" ∧
        Notification.urgent bin.binId bin.fillLevel ∈ notes) ∧
      (∀ binId fillLevel, Notification.urgent binId fillLevel ∈ notes →
        fillLevel ≥ settings.alertThreshold ∧
        ∃ bin ∈ binData, bin.binId = binId ∧ bin.fillLevel = fillLevel) ∧
      (∀ bin ∈ binData, bin.fillLevel < settings.alertThreshold →
        getBinStatusClass settings bin.fillLevel ≠ "status-danger" ∧
        Notification.urgent bin.binId bin.fillLevel ∉ notes) := by
  obtain ⟨notes, hnotes, hmem⟩ := updateNotifications_of_container page settings binData h
  have hconv : ∀ binId fillLevel, Notification.urgent binId fillLevel ∈ notes →
      fillLevel ≥ settings.alertThreshold ∧
      ∃ bin ∈ binData, bin.binId = binId ∧ bin.fillLevel = fillLevel := by
    intro binId fillLevel hn
    rcases (hmem _).mp hn with ⟨hs, -⟩ | ⟨bin, hbin, hge, heq⟩ | ⟨bin, -, -, heq⟩ |
      ⟨bin, -, -, heq⟩
    · cases hs
    · cases heq
      exact ⟨hge, bin, hbin, rfl, rfl⟩
    · cases heq
    · cases heq
  refine ⟨notes, hnotes, ?_, hconv, ?_⟩
  · intro bin hbin hge
    refine ⟨by simp [getBinStatusClass, hge], (hmem _).mpr ?_⟩
    exact Or.inr (Or.inl ⟨bin, hbin, hge, rfl⟩)
  · intro bin hbin hlt
    refine ⟨by simp [getBinStatusClass, not_le.mpr hlt]; split <;> simp, fun hn => ?_⟩
    exact absurd (hconv _ _ hn).1 (not_le.mpr hlt)

/-- C9, at a concrete input: bin 4 at 95 % with the alert threshold 85. -/
theorem C9_danger_notification_witness :
    fullPage.notifications = true ∧
    ∃ notes, updateNotifications fullPage defaultSettings [bin4At95] = some notes ∧
      (∀ bin ∈ [bin4At95], bin.fillLevel ≥ defaultSettings.alertThreshold →
        getBinStatusClass defaultSettings bin.fillLevel = "status-danger" ∧
        Notification.urgent bin.binId bin.fillLevel ∈ notes) ∧
      (∀ binId fillLevel, Notification.urgent binId fillLevel ∈ notes →
        fillLevel ≥ defaultSettings.alertThreshold ∧
        ∃ bin ∈ [bin4At95], bin.binId = binId ∧ bin.fillLevel = fillLevel) ∧
      (∀ bin ∈ [bin4At95], bin.fillLevel < defaultSettings.alertThreshold →
        getBinStatusClass defaultSettings bin.fillLevel ≠ "status-danger" ∧
        Notification.urgent bin.binId bin.fillLevel ∉ notes) :=
  ⟨rfl, C9_danger_notification fullPage defaultSettings [bin4At95] rfl⟩

/-- C10 (as stated, refuted): two runs of `renderDashboard` on the same page, the same
mirror (bin 4 at 95 %) and the same settings, at the same time, one with the draw 0 and
one with the draw 1/2 for `collectionsToday`: the first writes 2, the second 4, so the two
view states differ. -/
theorem C10_quick_stats_depend_on_draw :
    (updateQuickStats defaultSettings [bin4At95] 0 0).collectionsToday = 2 ∧
    (updateQuickStats defaultSettings [bin4At95] (1 / 2) 0).collectionsToday = 4 ∧
    renderDashboard fullPage defaultSettings [bin4At95] 0 0 0 ≠
      renderDashboard fullPage defaultSettings [bin4At95] (1 / 2) 0 0 := by
  have h₀ : (updateQuickStats defaultSettings [bin4At95] 0 0).collectionsToday = 2 := by
    simp [updateQuickStats, mathFloor]
  have h₁ : (updateQuickStats defaultSettings [bin4At95] (1 / 2) 0).collectionsToday = 4 := by
    have hfloor : ⌊(1 / 2 : ℚ) * 5⌋ = 2 := by
      rw [Int.floor_eq_iff]
      constructor <;> norm_num
    simp only [updateQuickStats, mathFloor, hfloor]
    norm_num
  refine ⟨h₀, h₁, fun heq => ?_⟩
  have hstats := congrArg (fun v => v.stats.collectionsToday) heq
  simp only [renderDashboard] at hstats
  rw [h₀, h₁] at hstats
  norm_num at hstats

/-- C10 (amended): for every page, mirror and settings, the status class, status icon and
progress colour of every card, the stats `totalBins`, `fullBins`, `avgFill`,
`collectionDue` and `avgFillToday`, and the notification list are the same in any two runs
of `renderDashboard`, whatever the draws of `Math.random()` and the clock readings of the
two runs. -/
theorem C10_rederivation_of_mirror_and_settings (page : Page) (settings : Settings)
    (binData : List Bin) (r₁ r₂ r₁' r₂' : ℚ) (now now' : ℤ) :
    (renderDashboard page settings binData r₁ r₂ now).cards.map
        (List.map (fun card => (card.binId, card.statusClass, card.statusIcon,
          card.progressColor))) =
      (renderDashboard page settings binData r₁' r₂' now').cards.map
        (List.map (fun card => (card.binId, card.statusClass, card.statusIcon,
          card.progressColor))) ∧
    (renderDashboard page settings binData r₁ r₂ now).stats.totalBins =
      (renderDashboard page settings binData r₁' r₂' now').stats.totalBins ∧
    (renderDashboard page settings binData r₁ r₂ now).stats.fullBins =
      (renderDashboard page settings binData r₁' r₂' now').stats.fullBins ∧
    (renderDashboard page settings binData r₁ r₂ now).stats.avgFill =
      (renderDashboard page settings binData r₁' r₂' now').stats.avgFill ∧
    (renderDashboard page settings binData r₁ r₂ now).stats.collectionDue =
      (renderDashboard page settings binData r₁' r₂' now').stats.collectionDue ∧
    (renderDashboard page settings binData r₁ r₂ now).stats.avgFillToday =
      (renderDashboard page settings binData r₁' r₂' now').stats.avgFillToday ∧
    (renderDashboard page settings binData r₁ r₂ now).notifications =
      (renderDashboard page settings binData r₁' r₂' now').notifications := by
  refine ⟨?_, rfl, rfl, rfl, rfl, rfl, rfl⟩
  simp only [renderDashboard, renderBinCards]
  cases page.binsGrid <;> simp [createBinCard]

/-- C11: in every state reached from the initial client state by any sequence of events
the retry counter is at most 3 (and the bound itself stays 3); a channel close in a
reached state whose counter is 3 schedules no retry timer; the counter 3 is reached. -/
theorem C11_bounded_retries (events : List ClientEvent) :
    (clientRun initialClientState events).retryCount ≤ 3 ∧
    (clientRun initialClientState events).maxRetries = 3 ∧
    ((clientRun initialClientState events).retryCount = 3 →
      (clientStep (clientRun initialClientState events) .channelClosed).pendingRetries =
        (clientRun initialClientState events).pendingRetries) ∧
    (clientRun initialClientState
      [.initLoaded true, .channelClosed, .online, .loadCompleted true, .retryTimer,
        .channelClosed, .online, .loadCompleted true, .retryTimer,
        .channelClosed, .online, .loadCompleted true, .retryTimer]).retryCount = 3 := by
  have hinv := clientRun_inv initialClientState events initialClientState_inv
  exact ⟨hinv.2.2.2.1, hinv.1, channelClosed_at_bound _ hinv.1, by decide⟩

/-- C12 (as stated, refuted): a disconnected client whose counter is 3 handles the
`online` signal: the counter is still 3 and no socket has been created; only a call of
`loadInitialData` is in flight. -/
theorem C12_online_keeps_counter :
    exhaustedClient.isConnected = false ∧ exhaustedClient.retryCount = 3 ∧
    (clientStep exhaustedClient .online).retryCount = 3 ∧
    (clientStep exhaustedClient .online).channels = 0 ∧
    clientStep exhaustedClient .online = { exhaustedClient with pendingLoads := 1 } := by
  decide

/-- C12 (amended): for every client state that is disconnected with its retry counter at
3, handling the `online` signal starts one call of `loadInitialData` and leaves the
retry counter at 3. -/
theorem C12_online_reloads (s : ClientState) (hdisc : s.isConnected = false)
    (hcount : s.retryCount = 3) :
    (clientStep s .online).retryCount = 3 ∧
    (clientStep s .online).pendingLoads = s.pendingLoads + 1 := by
  simp [clientStep, handleConnectionChange, initializeWebSocket, hdisc, hcount]

/-- C12 (amended), at a concrete input: the client whose three retries are used up. -/
theorem C12_online_reloads_witness :
    exhaustedClient.isConnected = false ∧ exhaustedClient.retryCount = 3 ∧
    (clientStep exhaustedClient .online).retryCount = 3 ∧
    (clientStep exhaustedClient .online).pendingLoads = exhaustedClient.pendingLoads + 1 :=
  ⟨rfl, rfl, C12_online_reloads exhaustedClient rfl rfl⟩

/-- C13 (the code at the failing input): a connected client with one socket and no retry
so far; the socket closes and the retry timer fires.  The timer's call of
`initializeWebSocket` returns at its guard: no socket exists afterwards, the client is
disconnected and the counter is 1. -/
theorem C13_retry_opens_no_channel :
    connectedClient.isConnected = true ∧ connectedClient.retryCount < 3 ∧
    (clientRun connectedClient [.channelClosed]).pendingRetries = 1 ∧
    (clientRun connectedClient [.channelClosed, .retryTimer]).channels = 0 ∧
    (clientRun connectedClient [.channelClosed, .retryTimer]).isConnected = false ∧
    (clientRun connectedClient [.channelClosed, .retryTimer]).retryCount = 1 ∧
    (clientRun connectedClient [.channelClosed, .retryTimer]).pendingRetries = 0 := by
  decide

/-- C14 (as stated, refuted): the body `{binId: 0, location: "X"}` has both keys and the
empty store holds no bin with `binId` 0, yet the answer is 400 and not 201. -/
theorem C14_zero_binId_not_created :
    (postBin [] { binId := some 0, location := some "X", capacity := none } 0).status =
      some 400 ∧
    (postBin [] { binId := some 0, location := some "X", capacity := none } 0).store = [] ∧
    findOne [] 0 = none := by
  decide

/-- C14 (amended): for every store and every request body of `POST /api/bins`: if `binId`
is absent or 0, or `location` is absent or empty, the answer is 400; if a bin with the
requested `binId` exists, the answer is 400; in both cases the store is unchanged and
nothing is broadcast.  Otherwise the answer is 201 and carries the created record, which
is appended to the store and broadcast as `bin_added`. -/
theorem C14_post_rejects_atomically (store : List Bin) (body : CreateBinBody) (now : ℤ) :
    ((body.binId = none ∨ body.binId = some 0 ∨ body.location = none ∨
        body.location = some "") →
      (postBin store body now).status = some 400 ∧
      (postBin store body now).store = store ∧
      (postBin store body now).broadcasts = []) ∧
    (∀ binId, body.binId = some binId → (∃ bin ∈ store, bin.binId = binId) →
      (postBin store body now).status = some 400 ∧
      (postBin store body now).store = store ∧
      (postBin store body now).broadcasts = []) ∧
    (∀ binId location, body.binId = some binId → body.location = some location →
      binId ≠ 0 → location ≠ "" → (∀ bin ∈ store, bin.binId ≠ binId) →
      (postBin store body now).status = some 201 ∧
      (postBin store body now).responseBin =
        some (createdBin binId location (body.capacity.getD 100) now) ∧
      (postBin store body now).store =
        store ++ [createdBin binId location (body.capacity.getD 100) now] ∧
      (postBin store body now).broadcasts =
        [.bin_added (createdBin binId location (body.capacity.getD 100) now)]) := by
  refine ⟨fun h => ?_, fun binId hid hex => ?_, fun binId location hid hloc hne hlne hfree => ?_⟩
  · rw [postBin_reject store body now (by tauto)]
    exact ⟨rfl, rfl, rfl⟩
  · rw [postBin_reject store body now
      (Or.inr (Or.inr (Or.inr (Or.inr ⟨binId, hid, hex⟩))))]
    exact ⟨rfl, rfl, rfl⟩
  · rcases body with ⟨bid, loc, cap⟩
    simp only at hid hloc
    subst hid hloc
    rw [postBin_accept store binId location cap now hne hlne hfree]
    exact ⟨rfl, rfl, rfl, rfl⟩

/-- C14 (amended), at a concrete input: `{binId: 7, location: "X"}` on a store that
holds bin 4 only is answered 201 with the created record. -/
theorem C14_post_rejects_atomically_witness :
    (postBin [defaultBin4] { binId := some 7, location := some "X", capacity := none }
      0).status = some 201 ∧
    (postBin [defaultBin4] { binId := some 7, location := some "X", capacity := none }
      0).responseBin = some (createdBin 7 "X" 100 0) ∧
    (postBin [defaultBin4] { binId := some 7, location := some "X", capacity := none }
      0).store = [defaultBin4] ++ [createdBin 7 "X" 100 0] ∧
    (postBin [defaultBin4] { binId := some 7, location := some "X", capacity := none }
      0).broadcasts = [.bin_added (createdBin 7 "X" 100 0)] :=
  (C14_post_rejects_atomically [defaultBin4]
    { binId := some 7, location := some "X", capacity := none } 0).2.2 7 "X" rfl rfl
    (by decide) (by decide) (by simp [defaultBin4])

/-- C15 (as stated, refuted): on the empty store, `POST /api/bins` with
`{binId: 7, location: ""}` followed by `GET /api/bins/7` is answered 404, and so is
`{binId: 0, location: "X"}` followed by `GET /api/bins/0`: no record is returned. -/
theorem C15_round_trip_fails_on_empty_values :
    (getBin (postBin [] { binId := some 7, location := some "", capacity := none } 0).store
      7).status = some 404 ∧
    (getBin (postBin [] { binId := some 0, location := some "X", capacity := none } 0).store
      0).status = some 404 := by
  decide

/-- C15 (amended): for every store that holds no bin with `binId` b, every b other than 0
and every non-empty location x, `POST /api/bins` with `{binId: b, location: x}` followed
by `GET /api/bins/b` is answered 200 with a record that has `binId` b, location x, fill
level 0, battery level 100, capacity 100 and sensor status `active`. -/
theorem C15_create_read_round_trip (store : List Bin) (b : ℤ) (x : String) (now : ℤ)
    (hb : b ≠ 0) (hx : x ≠ "") (hfree : ∀ bin ∈ store, bin.binId ≠ b) :
    ∃ bin,
      (getBin (postBin store { binId := some b, location := some x, capacity := none }
        now).store b).effects = [.respond 200 (some bin)] ∧
      bin.binId = b ∧ bin.location = x ∧ bin.fillLevel = 0 ∧ bin.batteryLevel = 100 ∧
      bin.capacity = some 100 ∧ bin.sensorStatus = "active" := by
  refine ⟨createdBin b x 100 now, ?_, rfl, rfl, rfl, rfl, rfl, rfl⟩
  rw [postBin_accept store b x none now hb hx hfree]
  have hfind : findOne (store ++ [createdBin b x 100 now]) b = some (createdBin b x 100 now) :=
    findOne_append_new store (createdBin b x 100 now) hfree
  simp [getBin, hfind]

/-- C15 (amended), at a concrete input: b = 7 and x = "X" on a store that holds bin 4. -/
theorem C15_create_read_round_trip_witness :
    (7 : ℤ) ≠ 0 ∧ "X" ≠ "" ∧ (∀ bin ∈ [defaultBin4], bin.binId ≠ 7) ∧
    ∃ bin,
      (getBin (postBin [defaultBin4]
        { binId := some 7, location := some "X", capacity := none } 0).store 7).effects =
        [.respond 200 (some bin)] ∧
      bin.binId = 7 ∧ bin.location = "X" ∧ bin.fillLevel = 0 ∧ bin.batteryLevel = 100 ∧
      bin.capacity = some 100 ∧ bin.sensorStatus = "active" :=
  ⟨by decide, by decide, by simp [defaultBin4],
    C15_create_read_round_trip [defaultBin4] 7 "X" 0 (by decide) (by decide)
      (by simp [defaultBin4])⟩

/-- C16: for every store and every outcome of the store calls, each REST mutation does one
of the following, and which one is fixed by the request, the store and the calls.
`POST`: a body whose `binId` is absent or 0 or whose location is absent or empty is
answered 400; otherwise a rejected `findOne` is answered 500, an existing `binId` 400, a
rejected `save` 500; otherwise the record is saved, then broadcast as `bin_added`, then
answered 201.  `PUT` and `DELETE`: a rejected store call is answered 500, an unknown
`binId` 404; otherwise the first record with the `binId` is updated (deleted), then
broadcast as `bin_updated` carrying the updated record (`bin_deleted` carrying the
`binId`), then answered 200.  Every answer 400, 404 or 500 is the only effect: the store
is unchanged and nothing is broadcast.  A record with the `binId` is always the first
one behind some prefix, so the cases are exhaustive. -/
theorem C16_write_then_broadcast (calls : StoreCalls) (store : List Bin)
    (body : CreateBinBody) (binId : ℤ) (updateData : BinUpdate) (now : ℤ) :
    ((body.binId = none ∨ body.binId = some 0 ∨ body.location = none ∨
        body.location = some "") →
      postBinHandler calls store body now =
        { store := store, effects := [.respond 400 none] }) ∧
    (∀ b x, body.binId = some b → body.location = some x → b ≠ 0 → x ≠ "" →
      calls.findResolves = false →
      postBinHandler calls store body now =
        { store := store, effects := [.respond 500 none] }) ∧
    (∀ b x, body.binId = some b → body.location = some x → b ≠ 0 → x ≠ "" →
      calls.findResolves = true → (∃ bin ∈ store, bin.binId = b) →
      postBinHandler calls store body now =
        { store := store, effects := [.respond 400 none] }) ∧
    (∀ b x, body.binId = some b → body.location = some x → b ≠ 0 → x ≠ "" →
      calls.findResolves = true → (∀ bin ∈ store, bin.binId ≠ b) →
      calls.writeResolves = false →
      postBinHandler calls store body now =
        { store := store, effects := [.respond 500 none] }) ∧
    (∀ b x, body.binId = some b → body.location = some x → b ≠ 0 → x ≠ "" →
      calls.findResolves = true → (∀ bin ∈ store, bin.binId ≠ b) →
      calls.writeResolves = true →
      postBinHandler calls store body now =
        { store := store ++ [createdBin b x (body.capacity.getD 100) now]
          effects := [.saved (createdBin b x (body.capacity.getD 100) now),
            .emit (.bin_added (createdBin b x (body.capacity.getD 100) now)),
            .respond 201 (some (createdBin b x (body.capacity.getD 100) now))] }) ∧
    (calls.writeResolves = false →
      putBinHandler calls store binId updateData now =
        { store := store, effects := [.respond 500 none] }) ∧
    (calls.writeResolves = true → (∀ bin ∈ store, bin.binId ≠ binId) →
      putBinHandler calls store binId updateData now =
        { store := store, effects := [.respond 404 none] }) ∧
    (calls.writeResolves = true → ∀ before doc after,
      firstWithBinId store binId before doc after →
      putBinHandler calls store binId updateData now =
        { store := before ++ spreadBin doc { updateData with lastUpdated := some now } :: after
          effects := [.updated (spreadBin doc { updateData with lastUpdated := some now }),
            .emit (.bin_updated (spreadBin doc { updateData with lastUpdated := some now })),
            .respond 200 (some (spreadBin doc { updateData with lastUpdated := some now }))] }) ∧
    (calls.writeResolves = false →
      deleteBinHandler calls store binId =
        { store := store, effects := [.respond 500 none] }) ∧
    (calls.writeResolves = true → (∀ bin ∈ store, bin.binId ≠ binId) →
      deleteBinHandler calls store binId =
        { store := store, effects := [.respond 404 none] }) ∧
    (calls.writeResolves = true → ∀ before doc after,
      firstWithBinId store binId before doc after →
      deleteBinHandler calls store binId =
        { store := before ++ after
          effects := [.deleted doc, .emit (.bin_deleted binId), .respond 200 none] }) ∧
    ((∃ bin ∈ store, bin.binId = binId) →
      ∃ before doc after, firstWithBinId store binId before doc after) := by
  refine ⟨?_, ?_, ?_, ?_, ?_, ?_, ?_, ?_, ?_, ?_, ?_, exists_first_of_mem store binId⟩
  · intro h
    rcases body with ⟨bid, loc, cap⟩
    cases bid with
    | none => cases loc <;> rfl
    | some b =>
      cases loc with
      | none => rfl
      | some x =>
        have hg : b = 0 ∨ x = "" := by
          rcases h with h | h | h | h
          · cases h
          · exact Or.inl (by simpa using h)
          · cases h
          · exact Or.inr (by simpa using h)
        simp [postBinHandler, hg]
  · intro b x hb hx hb0 hx0 hfind
    rcases body with ⟨bid, loc, cap⟩
    simp only at hb hx
    subst hb hx
    simp [postBinHandler, hb0, hx0, hfind]
  · intro b x hb hx hb0 hx0 hfind hex
    rcases body with ⟨bid, loc, cap⟩
    simp only at hb hx
    subst hb hx
    cases hf : findOne store b with
    | none =>
      obtain ⟨bin, hbin, hid⟩ := hex
      exact absurd hid ((findOne_eq_none_iff store b).mp hf bin hbin)
    | some found => simp [postBinHandler, hb0, hx0, hfind, hf]
  · intro b x hb hx hb0 hx0 hfind hfree hwrite
    rcases body with ⟨bid, loc, cap⟩
    simp only at hb hx
    subst hb hx
    have hf : findOne store b = none := (findOne_eq_none_iff store b).mpr hfree
    simp [postBinHandler, hb0, hx0, hfind, hf, hwrite]
  · intro b x hb hx hb0 hx0 hfind hfree hwrite
    rcases body with ⟨bid, loc, cap⟩
    simp only at hb hx
    subst hb hx
    have hf : findOne store b = none := (findOne_eq_none_iff store b).mpr hfree
    simp [postBinHandler, hb0, hx0, hfind, hf, hwrite]
  · intro hwrite
    simp [putBinHandler, hwrite]
  · intro hwrite hfree
    have hf := (findOneAndUpdate_eq_none_iff store binId
      { updateData with lastUpdated := some now }).mpr hfree
    simp [putBinHandler, hwrite, hf]
  · intro hwrite before doc after hfirst
    have hf := findOneAndUpdate_of_first store binId
      { updateData with lastUpdated := some now } before doc after hfirst
    simp [putBinHandler, hwrite, hf]
  · intro hwrite
    simp [deleteBinHandler, hwrite]
  · intro hwrite hfree
    have hf := (findOneAndDelete_eq_none_iff store binId).mpr hfree
    simp [deleteBinHandler, hwrite, hf]
  · intro hwrite before doc after hfirst
    have hf := findOneAndDelete_of_first store binId before doc after hfirst
    simp [deleteBinHandler, hwrite, hf]

/-- C16, at a concrete input: `DELETE /api/bins/4` on the store holding bins 4 and 7, the
store calls resolving, removes bin 4, then broadcasts `bin_deleted` for 4, then answers
200; with the store call rejecting it answers 500 and does nothing else. -/
theorem C16_write_then_broadcast_witness :
    deleteBinHandler StoreCalls.healthy [defaultBin4, newBin7] 4 =
      { store := [newBin7]
        effects := [.deleted defaultBin4, .emit (.bin_deleted 4), .respond 200 none] } ∧
    deleteBinHandler { findResolves := true, writeResolves := false } [defaultBin4, newBin7] 4 =
      { store := [defaultBin4, newBin7], effects := [.respond 500 none] } :=
  ⟨(C16_write_then_broadcast StoreCalls.healthy [defaultBin4, newBin7]
      { binId := none, location := none, capacity := none } 4 emptyUpdate 0).2.2.2.2.2.2.2.2.2.2.1
      rfl [] defaultBin4 [newBin7] ⟨rfl, rfl, by simp⟩,
    (C16_write_then_broadcast { findResolves := true, writeResolves := false }
      [defaultBin4, newBin7] { binId := none, location := none, capacity := none } 4
      emptyUpdate 0).2.2.2.2.2.2.2.2.1 rfl⟩

/-- C17 (as stated, refuted): the store holds bin 4; `PUT /api/bins/4` with the body
`{binId: 9}` answers with a record whose `binId` is 9, and the `binId`s of the store are
`[9]` afterwards, `[4]` before. -/
theorem C17_put_rewrites_binId :
    (putBin [defaultBin4] 4 { emptyUpdate with binId := some 9 } 1000).responseBin =
      some { defaultBin4 with binId := 9, lastUpdated := some 1000 } ∧
    (putBin [defaultBin4] 4 { emptyUpdate with binId := some 9 } 1000).store.map
      (fun bin => bin.binId) = [9] ∧
    [defaultBin4].map (fun bin => bin.binId) = [4] := by
  decide

/-- C17 (amended): for every store, every id present in it and every body of
`PUT /api/bins/{id}` that has no `binId` key or has the `binId` id, the record answered
and stored has `binId` id and the `binId`s of the store, in order, are the same before
and after. -/
theorem C17_put_keeps_binId (store : List Bin) (binId : ℤ) (updateData : BinUpdate) (now : ℤ)
    (hmem : ∃ bin ∈ store, bin.binId = binId)
    (hkey : updateData.binId = none ∨ updateData.binId = some binId) :
    ∃ updatedBin, (putBin store binId updateData now).effects =
        [.updated updatedBin, .emit (.bin_updated updatedBin), .respond 200 (some updatedBin)] ∧
      updatedBin.binId = binId ∧
      updatedBin ∈ (putBin store binId updateData now).store ∧
      (putBin store binId updateData now).store.map (fun bin => bin.binId) =
        store.map (fun bin => bin.binId) := by
  obtain ⟨updatedBin, store', h⟩ :=
    findOneAndUpdate_isSome_of_mem store binId { updateData with lastUpdated := some now } hmem
  obtain ⟨hb, hmap⟩ := findOneAndUpdate_keeps_binId store binId _ updatedBin store' h hkey
  obtain ⟨before, after, doc, -, -, -, -, hstore'⟩ :=
    findOneAndUpdate_eq_some store binId _ updatedBin store' h
  rw [putBin_of_some store binId updateData now updatedBin store' h]
  exact ⟨updatedBin, rfl, hb, by simp [hstore'], hmap⟩

/-- C17 (amended), at a concrete input: `PUT /api/bins/4` with `{binId: 4, fillLevel: 95}`
on a store that holds bin 4. -/
theorem C17_put_keeps_binId_witness :
    (∃ bin ∈ [defaultBin4], bin.binId = 4) ∧
    ((fillLevelPayload 4 95).binId = none ∨ (fillLevelPayload 4 95).binId = some 4) ∧
    ∃ updatedBin, (putBin [defaultBin4] 4 (fillLevelPayload 4 95) 1000).effects =
        [.updated updatedBin, .emit (.bin_updated updatedBin), .respond 200 (some updatedBin)] ∧
      updatedBin.binId = 4 ∧
      updatedBin ∈ (putBin [defaultBin4] 4 (fillLevelPayload 4 95) 1000).store ∧
      (putBin [defaultBin4] 4 (fillLevelPayload 4 95) 1000).store.map (fun bin => bin.binId) =
        [defaultBin4].map (fun bin => bin.binId) :=
  ⟨⟨defaultBin4, List.mem_singleton.mpr rfl, rfl⟩, Or.inr rfl,
    C17_put_keeps_binId [defaultBin4] 4 (fillLevelPayload 4 95) 1000
      ⟨defaultBin4, List.mem_singleton.mpr rfl, rfl⟩ (Or.inr rfl)⟩

/-- C18 (the code at the failing input): every bin of the store has its levels in
[0,100]; `PUT /api/bins/4` with the body `{fillLevel: 500}` is answered 200 and stores
the fill level 500, so the store no longer has all levels in [0,100]. -/
theorem C18_put_stores_out_of_range :
    (∀ bin ∈ [defaultBin4], bin.levelsInRange) ∧
    (putBin [defaultBin4] 4 { emptyUpdate with fillLevel := some 500 } 1000).status =
      some 200 ∧
    (putBin [defaultBin4] 4 { emptyUpdate with fillLevel := some 500 } 1000).store =
      [{ defaultBin4 with fillLevel := 500, lastUpdated := some 1000 }] ∧
    ¬ ∀ bin ∈ (putBin [defaultBin4] 4 { emptyUpdate with fillLevel := some 500 } 1000).store,
      bin.levelsInRange := by
  decide

/-- C19: for every user store and every request whose username and password are both
given (non-empty), the login route answers 200 with a token exactly when the first user
of the store under the lower-cased username is active and the password matches, and the
token is the one signed for that user; when no user has the lower-cased username, when
that user is deactivated and when the password does not match, it answers 401 without a
token. -/
theorem C19_login_token_only_for_valid (toLowerCase : String → String)
    (comparePassword : User → String → Bool) (users : List User) (body : LoginBody)
    (username password : String)
    (hu : body.username = some username) (hp : body.password = some password)
    (hune : username ≠ "") (hpne : password ≠ "") :
    (((login toLowerCase comparePassword users body).status = 200 ∧
        (login toLowerCase comparePassword users body).token ≠ none) ↔
      ∃ user, firstUserNamed users (toLowerCase username) user ∧ user.isActive = true ∧
        comparePassword user password = true) ∧
    (∀ user, firstUserNamed users (toLowerCase username) user → user.isActive = true →
      comparePassword user password = true →
      login toLowerCase comparePassword users body =
        { status := 200, token := some (tokenFor user) }) ∧
    ((∀ u ∈ users, u.username ≠ toLowerCase username) →
      login toLowerCase comparePassword users body = { status := 401, token := none }) ∧
    (∀ user, firstUserNamed users (toLowerCase username) user → user.isActive = false →
      login toLowerCase comparePassword users body = { status := 401, token := none }) ∧
    (∀ user, firstUserNamed users (toLowerCase username) user →
      comparePassword user password = false →
      login toLowerCase comparePassword users body = { status := 401, token := none }) := by
  rcases body with ⟨bu, bp⟩
  simp only at hu hp
  subst hu hp
  rw [login_of_given toLowerCase comparePassword users username password hune hpne]
  refine ⟨?_, ?_, ?_, ?_, ?_⟩
  · constructor
    · intro hres
      cases hf : findUser users (toLowerCase username) with
      | none => rw [hf] at hres; simp at hres
      | some user =>
        rw [hf] at hres
        by_cases hok : user.isActive = true ∧ comparePassword user password = true
        · exact ⟨user, first_of_findUser users _ user hf, hok.1, hok.2⟩
        · simp only [hok, if_false] at hres
          simp at hres
    · rintro ⟨user, hfirst, ha, hc⟩
      rw [findUser_of_first users _ user hfirst]
      simp [ha, hc]
  · intro user hfirst ha hc
    rw [findUser_of_first users _ user hfirst]
    simp [ha, hc]
  · intro hnone
    rw [(findUser_eq_none_iff users _).mpr hnone]
  · intro user hfirst ha
    rw [findUser_of_first users _ user hfirst]
    simp [ha]
  · intro user hfirst hc
    rw [findUser_of_first users _ user hfirst]
    simp [hc]

/-- C19, at a concrete input: the default administrator logging in as `Admin` with the
password `admin123`, the lower-casing being that of ASCII letters; the answer is 200 with
the administrator's token. -/
theorem C19_login_token_only_for_valid_witness :
    ("Admin" ≠ "" ∧ "admin123" ≠ "") ∧
    firstUserNamed [adminUser] (asciiLower "Admin") adminUser ∧
    login asciiLower admin123 [adminUser]
        { username := some "Admin", password := some "admin123" } =
      { status := 200, token := some (tokenFor adminUser) } :=
  ⟨⟨by decide, by decide⟩, ⟨[], [], rfl, by decide, by simp⟩,
    (C19_login_token_only_for_valid asciiLower admin123 [adminUser]
      { username := some "Admin", password := some "admin123" } "Admin" "admin123" rfl rfl
      (by decide) (by decide)).2.1 adminUser ⟨[], [], rfl, by decide, by simp⟩ rfl rfl⟩

/-- C20: for every store, the connection handler sends the new socket exactly one event,
an `initial_data` event, whose list holds exactly the bins of the store (a permutation of
it) in ascending order of `binId`. -/
theorem C20_snapshot_on_connect (store : List Bin) :
    ∃ bins, onConnection store = [.initial_data bins] ∧ bins.Perm store ∧
      List.Sorted (fun a b => a.binId ≤ b.binId) bins := by
  haveI : IsTotal Bin (fun a b => a.binId ≤ b.binId) := ⟨fun a b => le_total a.binId b.binId⟩
  haveI : IsTrans Bin (fun a b => a.binId ≤ b.binId) := ⟨fun a b c hab hbc => le_trans hab hbc⟩
  exact ⟨findSortedByBinId store, rfl, List.perm_insertionSort _ store,
    List.sorted_insertionSort _ store⟩

/-- C21 (the code at the failing input): on the empty mirror, whatever the settings and
the draws, `updateQuickStats` counts 0 bins and its average `Math.round(0 / 0)` is `NaN`
(written `none`), not a number in [0,100]. -/
theorem C21_empty_mirror_average_is_nan (settings : Settings) (r₁ r₂ : ℚ) :
    (updateQuickStats settings [] r₁ r₂).totalBins = 0 ∧
    (updateQuickStats settings [] r₁ r₂).fullBins = 0 ∧
    (updateQuickStats settings [] r₁ r₂).collectionDue = 0 ∧
    (updateQuickStats settings [] r₁ r₂).avgFill = none ∧
    (updateQuickStats settings [] r₁ r₂).avgFillToday = none := by
  simp [updateQuickStats]

/-- C22 (the code at the failing input): bin 4 with its battery at 10 %, in [0,100]; one
step with the draw 1/20 for the battery (below 1/10, so the drain branch runs) leaves
the battery at 20 %, above its previous value. -/
theorem C22_low_battery_rises :
    0 ≤ lowBatteryBin4.batteryLevel ∧ lowBatteryBin4.batteryLevel ≤ 100 ∧
    lowBatteryBin4.batteryLevel = 10 ∧
    (simulateBin lowBatteryBin4 (1 / 2) (1 / 20) 0).batteryLevel = 20 ∧
    ¬ (simulateBin lowBatteryBin4 (1 / 2) (1 / 20) 0).batteryLevel ≤
      lowBatteryBin4.batteryLevel := by
  have hbefore : lowBatteryBin4.batteryLevel = 10 := rfl
  have hafter : (simulateBin lowBatteryBin4 (1 / 2) (1 / 20) 0).batteryLevel = 20 := by
    simp only [simulateBin, hbefore]
    norm_num
  rw [hafter, hbefore]
  norm_num

/-- C23 (the code at the failing input): bin 4 arrives with battery level 0 and
temperature 0; with every draw 0, `processBinData` returns it with battery level 80 and
temperature 20. -/
theorem C23_zero_values_replaced :
    flatBin4.batteryLevel = 0 ∧ flatBin4.temperature = 0 ∧
    (processBinData [flatBin4.toRaw] (fun _ => 0) 0).map
      (fun bin => (bin.binId, bin.batteryLevel, bin.temperature)) = [(4, 80, 20)] := by
  refine ⟨rfl, rfl, ?_⟩
  simp [processBinData, processBin, Bin.toRaw, flatBin4, defaultBin4, falsyNumber, mathFloor]

/-- C24: clamping to [0,100] and rounding commute, for every rational and for every real
number; hence the server's fill level is also the clamp of the rounded value, and the
client's fill level is also the rounding of the clamped value. -/
theorem C24_clamp_round_commute :
    (∀ x : ℚ, mathRound (max 0 (min 100 x)) = max 0 (min 100 (mathRound x))) ∧
    (∀ x : ℝ, ((⌊max 0 (min 100 x) + 1 / 2⌋ : ℤ) : ℝ) =
      max 0 (min 100 ((⌊x + 1 / 2⌋ : ℤ) : ℝ))) ∧
    (∀ fillLevel r : ℚ, simulatorFillLevel fillLevel r =
      max 0 (min 100 (mathRound (fillLevel + (r - 1 / 2) * 5)))) ∧
    (∀ (bin : Bin) (r₁ r₂ : ℚ) (now : ℤ), (simulateBin bin r₁ r₂ now).fillLevel =
      mathRound (max 0 (min 100 (bin.fillLevel + (r₁ - 1 / 2) * 3)))) :=
  ⟨clamp_mathRound_comm, clamp_round_comm_real,
    fun _ _ => clamp_mathRound_comm _,
    fun bin r₁ _ _ => (clamp_mathRound_comm (bin.fillLevel + (r₁ - 1 / 2) * 3)).symm⟩

end SmartBin
